import Mathlib

/-!
Verification of `src/utils.py` — the configuration helper of the
fast_dev_container shell wrapper.  The Python functions are embedded
shallowly: strings are Lean `String`s (operated on through their
`List Char` data to keep every function structurally recursive and
kernel-evaluable), Python `dict` records become an explicit record
structure with optional fields, fallible code returns `Except`/`Option`,
and the filesystem/stdin inputs become explicit parameters.
-/

namespace Utils

/-! ## Python string primitives

Python's `str.strip()` removes leading and trailing whitespace; for the
ASCII range (all that appears in this program's data) the whitespace
characters are space, tab, newline, carriage return, vertical tab and
form feed.  `str.split()` with no argument splits on runs of that same
whitespace and never yields empty tokens.  `str.split("|||")` splits on
every non-overlapping occurrence of the separator and keeps empty
pieces.
-/

/-- The characters Python's `str.strip()` / `str.split()` treat as
whitespace (ASCII subset). -/
def pySpace (c : Char) : Bool :=
  c = ' ' || c = '\t' || c = '\n' || c = '\r' || c = '\x0b' || c = '\x0c'

/-- `str.strip()` on the character list. -/
def pyStripL (l : List Char) : List Char :=
  ((l.dropWhile pySpace).reverse.dropWhile pySpace).reverse

/-- `str.strip()`. -/
def pyStrip (s : String) : String :=
  ⟨pyStripL s.data⟩

/-- Helper for `splitWsL`: accumulates the current token (reversed). -/
def splitWsAux : List Char → List Char → List (List Char)
  | [], acc => if acc.isEmpty then [] else [acc.reverse]
  | c :: rest, acc =>
    if pySpace c then
      if acc.isEmpty then splitWsAux rest [] else acc.reverse :: splitWsAux rest []
    else
      splitWsAux rest (c :: acc)

/-- `str.split()` (no separator): maximal runs of non-whitespace. -/
def splitWsL (l : List Char) : List (List Char) :=
  splitWsAux l []

/-- `str.split()` returning strings. -/
def pySplitWs (s : String) : List String :=
  (splitWsL s.data).map fun l => ⟨l⟩

/-- `str.split("|||")`: splits on each non-overlapping occurrence of
`|||`, scanning left to right, keeping empty pieces. -/
def splitPipesL : List Char → List (List Char)
  | '|' :: '|' :: '|' :: rest => [] :: splitPipesL rest
  | c :: rest =>
    match splitPipesL rest with
    | [] => [[c]]
    | h :: t => (c :: h) :: t
  | [] => [[]]

/-- `str.split("|||")` on strings. -/
def pySplitPipes (s : String) : List String :=
  (splitPipesL s.data).map fun l => ⟨l⟩

/-- Python `sep.join(...)` on character lists. -/
def joinWithL (sep : List Char) : List (List Char) → List Char
  | [] => []
  | [x] => x
  | x :: y :: rest => x ++ sep ++ joinWithL sep (y :: rest)

/-- `"|||".join(...)`. -/
def joinPipes (l : List String) : String :=
  ⟨joinWithL "|||".data (l.map String.data)⟩

/-- `" ".join(...)`. -/
def joinSpace (l : List String) : String :=
  ⟨joinWithL " ".data (l.map String.data)⟩

/-- `needle in hay` (Python substring containment) on character lists. -/
def containsSubL (needle : List Char) : List Char → Bool
  | [] => needle.isEmpty
  | c :: rest => needle.isPrefixOf (c :: rest) || containsSubL needle rest

/-- Python `needle in hay` for strings. -/
def pyContains (hay needle : String) : Bool :=
  containsSubL needle.data hay.data

/-- Python `s.startswith(p)`. -/
def pyStartsWith (s p : String) : Bool :=
  p.data.isPrefixOf s.data

/-- Python `s.lower()` (ASCII; all comparisons in the source are ASCII). -/
def pyLower (s : String) : String :=
  ⟨s.data.map Char.toLower⟩

/-- `":" in s` specialised to a single character. -/
def hasColon (s : String) : Bool :=
  s.data.contains ':'

/-- Python `s.split(":", 1)`: the part before the first `:` and the rest. -/
def splitFirstColonL : List Char → List Char × Option (List Char)
  | [] => ([], none)
  | ':' :: rest => ([], some rest)
  | c :: rest =>
    match splitFirstColonL rest with
    | (pre, tail) => (c :: pre, tail)

/-- Python `s.split(":", 1)` on strings: `(source, dest?)`. -/
def pySplitColon1 (s : String) : String × Option String :=
  match splitFirstColonL s.data with
  | (pre, tail) => (⟨pre⟩, tail.map fun l => ⟨l⟩)

/-- Lexicographic comparison by code point on character lists —
Python's `<=` on `str`. -/
def strLeB : List Char → List Char → Bool
  | [], _ => true
  | _ :: _, [] => false
  | a :: as, b :: bs =>
    if a.toNat < b.toNat then true
    else if b.toNat < a.toNat then false
    else strLeB as bs

/-- Python's `<=` on strings as a decidable relation. -/
def strLe (a b : String) : Prop := strLeB a.data b.data = true

instance : DecidableRel strLe := fun _ _ => inferInstanceAs (Decidable (_ = true))

theorem charEq_of_toNat_eq {x y : Char} (h : x.toNat = y.toNat) : x = y :=
  Char.ext (UInt32.toNat.inj h)

theorem strLeB_total : ∀ a b, strLeB a b = true ∨ strLeB b a = true := by
  intro a
  induction a with
  | nil => intro b; left; rfl
  | cons x xs ih =>
    intro b
    cases b with
    | nil => right; rfl
    | cons y ys =>
      simp only [strLeB]
      rcases Nat.lt_trichotomy x.toNat y.toNat with h | h | h
      · left; simp [h]
      · have hxy : ¬ x.toNat < y.toNat := by omega
        have hyx : ¬ y.toNat < x.toNat := by omega
        rcases ih ys with h2 | h2
        · left; simp [hxy, hyx, h2]
        · right; simp [hxy, hyx, h2]
      · right; simp [h, Nat.lt_asymm h]

theorem strLeB_antisymm : ∀ a b, strLeB a b = true → strLeB b a = true → a = b := by
  intro a
  induction a with
  | nil =>
    intro b _ hba
    cases b with
    | nil => rfl
    | cons y ys => simp [strLeB] at hba
  | cons x xs ih =>
    intro b hab hba
    cases b with
    | nil => simp [strLeB] at hab
    | cons y ys =>
      simp only [strLeB] at hab hba
      rcases Nat.lt_trichotomy x.toNat y.toNat with h | h | h
      · simp [h, Nat.lt_asymm h] at hba
      · have hxy : ¬ x.toNat < y.toNat := by omega
        have hyx : ¬ y.toNat < x.toNat := by omega
        simp [hxy, hyx] at hab hba
        rw [charEq_of_toNat_eq h, ih ys hab hba]
      · simp [h, Nat.lt_asymm h] at hab

theorem strLeB_trans :
    ∀ a b c, strLeB a b = true → strLeB b c = true → strLeB a c = true := by
  intro a
  induction a with
  | nil => intro b c _ _; rfl
  | cons x xs ih =>
    intro b c hab hbc
    cases b with
    | nil => simp [strLeB] at hab
    | cons y ys =>
      cases c with
      | nil => simp [strLeB] at hbc
      | cons z zs =>
        simp only [strLeB] at hab hbc ⊢
        by_cases h1 : x.toNat < y.toNat <;> by_cases h1' : y.toNat < x.toNat <;>
          by_cases h2 : y.toNat < z.toNat <;> by_cases h2' : z.toNat < y.toNat <;>
          by_cases h3 : x.toNat < z.toNat <;> by_cases h3' : z.toNat < x.toNat <;>
          simp only [h1, h1', h2, h2', h3, h3', if_true, if_false,
            ite_true, ite_false] at hab hbc ⊢ <;>
        first
        | rfl
        | omega
        | exact (Bool.false_ne_true hab).elim
        | exact (Bool.false_ne_true hbc).elim
        | exact ih ys zs hab hbc

instance : IsTotal String strLe := ⟨fun a b => strLeB_total a.data b.data⟩

instance : IsTrans String strLe := ⟨fun a b c => strLeB_trans a.data b.data c.data⟩

instance : IsAntisymm String strLe :=
  ⟨fun a b hab hba => by
    cases a; cases b
    exact congrArg String.mk (strLeB_antisymm _ _ hab hba)⟩

/-- Sorted-ascending string list (Python `sorted(...)`), lexicographic by
code point. -/
def pySorted (l : List String) : List String :=
  l.insertionSort strLe

/-- Python `sorted(set(...))`: distinct elements in ascending order. -/
def pySortedSet (l : List String) : List String :=
  pySorted l.dedup

/-- Sorting is invariant under permutation of the input. -/
theorem pySorted_eq_of_perm {l₁ l₂ : List String} (h : List.Perm l₁ l₂) :
    pySorted l₁ = pySorted l₂ := by
  apply List.eq_of_perm_of_sorted (r := strLe)
    (((List.perm_insertionSort strLe l₁).trans h).trans
      (List.perm_insertionSort strLe l₂).symm)
  · exact List.sorted_insertionSort strLe l₁
  · exact List.sorted_insertionSort strLe l₂

/-- `sorted(set(...))` is invariant under permutation of the input. -/
theorem pySortedSet_eq_of_perm {l₁ l₂ : List String} (h : List.Perm l₁ l₂) :
    pySortedSet l₁ = pySortedSet l₂ :=
  pySorted_eq_of_perm h.dedup

/-- Python `s.replace(needle, repl, 1)`: replace the first occurrence. -/
def replaceOnceL (needle repl : List Char) : List Char → List Char
  | [] => if needle.isEmpty then repl else []
  | c :: rest =>
    if needle.isPrefixOf (c :: rest) then repl ++ (c :: rest).drop needle.length
    else c :: replaceOnceL needle repl rest

/-- Python `s.replace(needle, repl)` with a non-empty needle: replace every
non-overlapping occurrence, scanning left to right.  The `fuel` argument
(instantiated with the string length) only forces structural recursion;
each step consumes at least one character. -/
def replaceAllFuel (needle repl : List Char) : Nat → List Char → List Char
  | _, [] => []
  | 0, l => l
  | fuel + 1, c :: rest =>
    if !needle.isEmpty && needle.isPrefixOf (c :: rest) then
      repl ++ replaceAllFuel needle repl fuel ((c :: rest).drop needle.length)
    else
      c :: replaceAllFuel needle repl fuel rest

/-- Python `s.replace(needle, repl)` (all occurrences, non-empty needle). -/
def pyReplaceAll (s needle repl : String) : String :=
  ⟨replaceAllFuel needle.data repl.data s.data.length s.data⟩

/-- Python `s.replace(needle, repl, 1)` on strings. -/
def pyReplaceOnce (s needle repl : String) : String :=
  ⟨replaceOnceL needle.data repl.data s.data⟩

/-! ## `normalize_iso_timestamp` (src/utils.py lines 113-122)

`TIMESTAMP_FRACTION_RE` is `(\.\d+)(?=(?:Z|[+-]\d{2}:?\d{2})?$)`: a dot
followed by digits, matching only when the rest of the string is empty,
`Z`, or a `±HH:MM`/`±HHMM` offset.  `re.sub(..., count=1)` removes the
first (leftmost) such match.  Because the lookahead can never start with
a digit, the greedy `\d+` never backtracks, so scanning for the first
dot whose maximal digit run is followed by a valid tail is exact. -/

/-- The lookahead `(?:Z|[+-]\d{2}:?\d{2})?$` of `TIMESTAMP_FRACTION_RE`. -/
def isTzTail : List Char → Bool
  | [] => true
  | ['Z'] => true
  | s :: rest =>
    (s = '+' || s = '-') &&
      match rest with
      | [a, b, ':', c, d] => a.isDigit && b.isDigit && c.isDigit && d.isDigit
      | [a, b, c, d] => a.isDigit && b.isDigit && c.isDigit && d.isDigit
      | _ => false

/-- `TIMESTAMP_FRACTION_RE.sub("", text, count=1)`. -/
def stripFracL : List Char → List Char
  | [] => []
  | c :: rest =>
    if c = '.' then
      let digs := rest.takeWhile Char.isDigit
      let rem := rest.dropWhile Char.isDigit
      if !digs.isEmpty && isTzTail rem then rem
      else c :: stripFracL rest
    else c :: stripFracL rest

/-- `normalize_iso_timestamp`: trim sub-second precision from ISO-like
timestamps.  (The `value is None` branch is not modelled: every caller in
the source passes a string.) -/
def normalizeIsoTimestamp (value : String) : String :=
  let text := pyStrip value
  if text = "" then "" else ⟨stripFracL text.data⟩

/-! ## `format_created_timestamp` (src/utils.py lines 68-110)

The function tries, in order:
1. `datetime.fromisoformat` on the text (`Z` first rewritten to `+00:00`
   when the text ends in `Z` and contains `T`) — modelled with the strict
   pre-3.11 grammar `YYYY-MM-DD[*HH[:MM[:SS[.fff[fff]]]][±HH:MM[:SS
   [.ffffff]]]]` that the `Z` workaround targets;
2. `strptime` with `"%Y-%m-%d %H:%M:%S %z %Z"` — Python's `strptime`
   compiles with `re.IGNORECASE`, turns each format-space into `\s+`,
   accepts 1-2 digits for `%m/%d/%H/%M/%S`, `±HHMM`/`±HH:MM[:SS[.f-6]]`
   or `Z` for `%z`, and for `%Z` the names `UTC`/`GMT` case-insensitively
   (locale timezone names are not modelled);
3. the same two 19-character naive layouts on `text[:19]` when the text
   has at least 19 characters.
A timezone-aware result is converted to UTC (CPython raises an uncaught
`OverflowError` when the shifted instant leaves years 1-9999) and the
result is rendered with `strftime("%Y-%m-%d %H:%M")`; on glibc `%Y` is
the unpadded decimal year.  If nothing parses, the *stripped* text is
returned.  Python's field validation happens inside the `datetime`
constructor; here every parser returns its raw fields and `mkDT` applies
the constructor checks. -/

/-- A zero-padded decimal digit character. -/
def digitC (k : Nat) : Char := Char.ofNat (48 + k % 10)

/-- Numeric value of a digit character. -/
def digitVal (c : Char) : Nat := c.toNat - 48

/-- Read exactly two digits. -/
def read2 : List Char → Option (Nat × List Char)
  | a :: b :: rest =>
    if a.isDigit && b.isDigit then some (digitVal a * 10 + digitVal b, rest)
    else none
  | _ => none

/-- Read exactly four digits. -/
def read4 : List Char → Option (Nat × List Char)
  | a :: b :: c :: d :: rest =>
    if a.isDigit && b.isDigit && c.isDigit && d.isDigit then
      some (((digitVal a * 10 + digitVal b) * 10 + digitVal c) * 10 +
        digitVal d, rest)
    else none
  | _ => none

/-- Read one or two digits, maximal munch (the `strptime` field regexes
never match fewer digits when more follow, because every following
format token starts with a non-digit). -/
def read12 : List Char → Option (Nat × List Char)
  | [] => none
  | [a] => if a.isDigit then some (digitVal a, []) else none
  | a :: b :: rest =>
    if a.isDigit then
      if b.isDigit then some (digitVal a * 10 + digitVal b, rest)
      else some (digitVal a, b :: rest)
    else none

/-- Consume one expected character. -/
def expectChar (c : Char) : List Char → Option (List Char)
  | d :: rest => if d = c then some rest else none
  | [] => none

/-- Consume a run of at least one whitespace character (`strptime` turns
a space in the format into `\s+`). -/
def skipWs1 : List Char → Option (List Char)
  | c :: rest => if pySpace c then some (rest.dropWhile pySpace) else none
  | [] => none

/-- Gregorian leap year. -/
def isLeap (y : Nat) : Bool := y % 4 = 0 && (y % 100 ≠ 0 || y % 400 = 0)

/-- `_DAYS_IN_MONTH` (non-leap). -/
def daysInMonthTab (m : Nat) : Nat :=
  if m = 2 then 28
  else if m = 4 || m = 6 || m = 9 || m = 11 then 30
  else 31

/-- Days in a month of a given year. -/
def daysInMonth (y m : Nat) : Nat :=
  if m = 2 && isLeap y then 29 else daysInMonthTab m

/-- `_DAYS_BEFORE_MONTH` (non-leap). -/
def daysBeforeMonth (m : Nat) : Nat :=
  match m with
  | 1 => 0 | 2 => 31 | 3 => 59 | 4 => 90 | 5 => 120 | 6 => 151
  | 7 => 181 | 8 => 212 | 9 => 243 | 10 => 273 | 11 => 304 | _ => 334

/-- A `datetime` value; `offUs` is the fixed-offset `tzinfo` in
microseconds (`none` = naive). -/
structure PyDateTime where
  year : Nat
  month : Nat
  day : Nat
  hour : Nat
  minute : Nat
  second : Nat
  micro : Nat
  offUs : Option Int
deriving Repr, DecidableEq

/-- The raw fields a parser hands to the `datetime` constructor. -/
structure RawDT where
  y : Nat := 0
  m : Nat := 0
  d : Nat := 0
  hh : Nat := 0
  mi : Nat := 0
  ss : Nat := 0
  us : Nat := 0
  off : Option Int := none
deriving Repr, DecidableEq

/-- The `datetime` constructor checks plus the `timezone` offset bound
(`-24h < offset < 24h`, Python 3.7+ allows sub-minute offsets). -/
def validDT (r : RawDT) : Bool :=
  1 ≤ r.y && r.y ≤ 9999 && 1 ≤ r.m && r.m ≤ 12 && 1 ≤ r.d &&
    r.d ≤ daysInMonth r.y r.m && r.hh ≤ 23 && r.mi ≤ 59 && r.ss ≤ 59 &&
    r.us ≤ 999999 &&
    (match r.off with
     | none => true
     | some o => -86400000000 < o && o < 86400000000)

/-- Raw fields through the `datetime` constructor. -/
def mkDT (r : RawDT) : Option PyDateTime :=
  if validDT r then
    some ⟨r.y, r.m, r.d, r.hh, r.mi, r.ss, r.us, r.off⟩
  else none

/-- `YYYY-MM-DD` with exactly four year digits (`fromisoformat`). -/
def parseIsoDate (l : List Char) :
    Option (Nat × Nat × Nat × List Char) := do
  let (y, r1) ← read4 l
  let r2 ← expectChar '-' r1
  let (m, r3) ← read2 r2
  let r4 ← expectChar '-' r3
  let (d, r5) ← read2 r4
  pure (y, m, d, r5)

/-- The exactly-3-or-6-digit fraction of pre-3.11 `fromisoformat`,
already scaled to microseconds. -/
def parseIsoFrac (l : List Char) : Option (Nat × List Char) :=
  let digs := l.takeWhile Char.isDigit
  let rest := l.dropWhile Char.isDigit
  if digs.length = 3 then
    some ((digs.foldl (fun a c => a * 10 + digitVal c) 0) * 1000, rest)
  else if digs.length = 6 then
    some (digs.foldl (fun a c => a * 10 + digitVal c) 0, rest)
  else none

/-- `±HH:MM[:SS[.ffffff]]` (pre-3.11 `fromisoformat` offsets require the
colons); result in microseconds. -/
def parseIsoOffset (l : List Char) : Option (Int × List Char) := do
  match l with
  | s :: r0 =>
    if s = '+' || s = '-' then do
      let (hh, r1) ← read2 r0
      let r2 ← expectChar ':' r1
      let (mm, r3) ← read2 r2
      let (secUs, r4) ←
        match expectChar ':' r3 with
        | none => pure ((0 : Nat), r3)
        | some r3' => do
          let (ss, r4) ← read2 r3'
          match r4 with
          | '.' :: r5 =>
            let digs := r5.takeWhile Char.isDigit
            if digs.length = 6 then
              pure (ss * 1000000 +
                digs.foldl (fun a c => a * 10 + digitVal c) 0,
                r5.dropWhile Char.isDigit)
            else none
          | _ => pure (ss * 1000000, r4)
      let total : Int := ((hh * 3600 + mm * 60) * 1000000 + secUs : Nat)
      pure (if s = '-' then -total else total, r4)
    else none
  | [] => none

/-- `HH[:MM[:SS[.fff[fff]]]][offset]` of pre-3.11 `fromisoformat`. -/
def parseIsoTime (l : List Char) : Option RawDT := do
  let (hh, r1) ← read2 l
  let (mi, ss, us, r4) ←
    match expectChar ':' r1 with
    | none => pure (0, 0, 0, r1)
    | some r1' => do
      let (mi, r2) ← read2 r1'
      match expectChar ':' r2 with
      | none => pure (mi, 0, 0, r2)
      | some r2' => do
        let (ss, r3) ← read2 r2'
        match r3 with
        | '.' :: r3' => do
          let (us, r4) ← parseIsoFrac r3'
          pure (mi, ss, us, r4)
        | _ => pure (mi, ss, 0, r3)
  match r4 with
  | [] => pure { hh := hh, mi := mi, ss := ss, us := us }
  | _ => do
    let (off, r5) ← parseIsoOffset r4
    match r5 with
    | [] => pure { hh := hh, mi := mi, ss := ss, us := us, off := some off }
    | _ => none

/-- Pre-3.11 `datetime.fromisoformat` (the separator after the date may
be any single character); fields are validated by the constructor. -/
def parseIso (l : List Char) : Option PyDateTime := do
  let (y, m, d, rest) ← parseIsoDate l
  match rest with
  | [] => mkDT { y := y, m := m, d := d }
  | _sep :: timeRest => do
    let t ← parseIsoTime timeRest
    mkDT { t with y := y, m := m, d := d }

/-- `%z`: `Z`, `±HHMM`, `±HH:MM`, optionally `[:​]SS[.f{1,6}]`; result in
microseconds (the fraction scales by its length). -/
def parseZOffset (l : List Char) : Option (Int × List Char) :=
  match l with
  | 'Z' :: rest => some (0, rest)
  | s :: r0 =>
    if s = '+' || s = '-' then do
      let (hh, r1) ← read2 r0
      let r1' := match expectChar ':' r1 with
        | some r => r
        | none => r1
      let (mm, r2) ← read2 r1'
      let (secUs, r4) ←
        match read2 (match expectChar ':' r2 with
          | some r => r
          | none => r2) with
        | none => pure ((0 : Nat), r2)
        | some (ss, r3) =>
          match r3 with
          | '.' :: r3' =>
            let digs := r3'.takeWhile Char.isDigit
            if 1 ≤ digs.length && digs.length ≤ 6 then
              pure (ss * 1000000 +
                (digs.foldl (fun a c => a * 10 + digitVal c) 0) *
                  10 ^ (6 - digs.length),
                r3'.dropWhile Char.isDigit)
            else pure (ss * 1000000, r3)
          | _ => pure (ss * 1000000, r3)
      let total : Int := ((hh * 3600 + mm * 60) * 1000000 + secUs : Nat)
      pure (if s = '-' then -total else total, r4)
    else none
  | [] => none

/-- `%Z` restricted to the always-recognised names `UTC`/`GMT`,
case-insensitively (`strptime` compiles with `re.IGNORECASE`). -/
def parseTzName (l : List Char) : Option (List Char) :=
  match l with
  | a :: b :: c :: rest =>
    if (a.toLower = 'u' && b.toLower = 't' && c.toLower = 'c') ||
        (a.toLower = 'g' && b.toLower = 'm' && c.toLower = 't') then
      some rest
    else none
  | _ => none

/-- `strptime(text, "%Y-%m-%d %H:%M:%S %z %Z")`, the docker `created`
format; must consume the whole string. -/
def parseDocker (l : List Char) : Option PyDateTime := do
  let (y, r1) ← read4 l
  let r2 ← expectChar '-' r1
  let (m, r3) ← read12 r2
  let r4 ← expectChar '-' r3
  let (d, r5) ← read12 r4
  let r6 ← skipWs1 r5
  let (hh, r7) ← read12 r6
  let r8 ← expectChar ':' r7
  let (mi, r9) ← read12 r8
  let r10 ← expectChar ':' r9
  let (ss, r11) ← read12 r10
  let r12 ← skipWs1 r11
  let (off, r13) ← parseZOffset r12
  let r14 ← skipWs1 r13
  let r15 ← parseTzName r14
  match r15 with
  | [] =>
    mkDT { y := y, m := m, d := d, hh := hh, mi := mi, ss := ss, off := some off }
  | _ => none

/-- The date/time separator of the two fallback layouts: a literal `T`
(matched case-insensitively, `strptime` compiles with `re.IGNORECASE`)
or a whitespace run. -/
def parseSep19 (sepT : Bool) (l : List Char) : Option (List Char) :=
  if sepT then
    match l with
    | c :: rest => if c = 'T' || c = 't' then some rest else none
    | [] => none
  else skipWs1 l

/-- One 19-character naive layout: `%Y-%m-%dT%H:%M:%S` when `sepT` is
true, else `%Y-%m-%d %H:%M:%S`; must consume the whole slice. -/
def parseLayout19 (sepT : Bool) (l : List Char) : Option PyDateTime := do
  let (y, r1) ← read4 l
  let r2 ← expectChar '-' r1
  let (m, r3) ← read12 r2
  let r4 ← expectChar '-' r3
  let (d, r5) ← read12 r4
  let r6 ← parseSep19 sepT r5
  let (hh, r7) ← read12 r6
  let r8 ← expectChar ':' r7
  let (mi, r9) ← read12 r8
  let r10 ← expectChar ':' r9
  let (ss, r11) ← read12 r10
  match r11 with
  | [] => mkDT { y := y, m := m, d := d, hh := hh, mi := mi, ss := ss }
  | _ => none

/-- The third fallback: both naive layouts on `text[:19]`. -/
def parse19 (l : List Char) : Option PyDateTime :=
  match parseLayout19 true l with
  | some dt => some dt
  | none => parseLayout19 false l

/-- `_ymd2ord`: days before January 1st of the year. -/
def daysBeforeYear (y : Nat) : Nat :=
  let n := y - 1
  n * 365 + n / 4 - n / 100 + n / 400

/-- `_ymd2ord`: proleptic-Gregorian ordinal, 0001-01-01 is day 1. -/
def ymd2ord (y m d : Nat) : Nat :=
  daysBeforeYear y + daysBeforeMonth m +
    (if 2 < m && isLeap y then 1 else 0) + d

/-- The month/day tail of CPython `_ord2ymd`: `rem` is the 0-based day of
the year. -/
def monthDayOf (rem : Nat) (leap : Bool) : Nat × Nat :=
  let month := (rem + 50) / 32
  let preceding :=
    daysBeforeMonth month + (if 2 < month && leap then 1 else 0)
  if rem < preceding then
    let month2 := month - 1
    let preceding2 :=
      preceding - (daysInMonthTab month2 + (if month2 = 2 && leap then 1 else 0))
    (month2, rem - preceding2 + 1)
  else
    (month, rem - preceding + 1)

/-- CPython `_ord2ymd`: ordinal back to `(year, month, day)`. -/
def ord2ymd (n : Nat) : Nat × Nat × Nat :=
  let n0 := n - 1
  let n400 := n0 / 146097
  let r1 := n0 % 146097
  let n100 := r1 / 36524
  let r2 := r1 % 36524
  let n4 := r2 / 1461
  let r3 := r2 % 1461
  let n1 := r3 / 365
  let rem := r3 % 365
  let year := n400 * 400 + 1 + n100 * 100 + n4 * 4 + n1
  if n1 = 4 || n100 = 4 then (year - 1, 12, 31)
  else
    let leap := n1 = 3 && (n4 ≠ 24 || n100 = 3)
    let (month, day) := monthDayOf rem leap
    (year, month, day)

/-- `dt.astimezone(timezone.utc)` for an aware `dt` with offset `off`
microseconds: subtract the offset and rebuild; CPython's
`datetime + timedelta` raises `OverflowError` unless the resulting
ordinal stays within `1 ..= 3652059`. -/
def astimezoneUTC (dt : PyDateTime) (off : Int) : Option PyDateTime :=
  let totalUs : Int :=
    ((ymd2ord dt.year dt.month dt.day * 86400 + dt.hour * 3600 +
        dt.minute * 60 + dt.second) * 1000000 + dt.micro : Nat) - off
  if totalUs < 86400000000 then none
  else
    let t := totalUs.toNat
    let days := t / 86400000000
    if 3652059 < days then none
    else
      let ymd := ord2ymd days
      let rem := t % 86400000000
      some ⟨ymd.1, ymd.2.1, ymd.2.2, rem / 3600000000,
        rem % 3600000000 / 60000000, rem % 60000000 / 1000000,
        rem % 1000000, none⟩

/-- Decimal digits of a year `1 ..= 9999` (glibc `%Y`: no zero padding;
`datetime` years never reach the final catch-all branch). -/
def yearChars (n : Nat) : List Char :=
  if n < 10 then [digitC n]
  else if n < 100 then [digitC (n / 10), digitC n]
  else if n < 1000 then [digitC (n / 100), digitC (n / 10), digitC n]
  else [digitC (n / 1000), digitC (n / 100), digitC (n / 10), digitC n]

/-- A zero-padded two-digit field (`%m`, `%d`, `%H`, `%M`). -/
def pad2 (n : Nat) : List Char := [digitC (n / 10), digitC n]

/-- `dt.strftime("%Y-%m-%d %H:%M")`. -/
def renderDT (dt : PyDateTime) : String :=
  ⟨yearChars dt.year ++ '-' :: pad2 dt.month ++ '-' :: pad2 dt.day ++
    ' ' :: pad2 dt.hour ++ ':' :: pad2 dt.minute⟩

/-- The tail `-MM-DD HH:MM` of a rendered timestamp. -/
def isTailForm : List Char → Bool
  | ['-', a, b, '-', c, d, ' ', e, f, ':', g, h] =>
    a.isDigit && b.isDigit && c.isDigit && d.isDigit && e.isDigit &&
      f.isDigit && g.isDigit && h.isDigit
  | _ => false

/-- The claim's exact `YYYY-MM-DD HH:MM` shape: four year digits. -/
def isClaimedForm (s : String) : Bool :=
  (s.data.takeWhile Char.isDigit).length = 4 &&
    isTailForm (s.data.dropWhile Char.isDigit)

/-- What the code actually renders: one to four year digits (glibc does
not pad `%Y`), then `-MM-DD HH:MM`. -/
def isRenderedForm (s : String) : Bool :=
  1 ≤ (s.data.takeWhile Char.isDigit).length &&
    (s.data.takeWhile Char.isDigit).length ≤ 4 &&
    isTailForm (s.data.dropWhile Char.isDigit)

/-- Render an aware result in UTC, or raise; render a naive result
directly (`dt.tzinfo is not None` check at line 107). -/
def finishDT (dt : PyDateTime) : Except String String :=
  match dt.offUs with
  | none => .ok (renderDT dt)
  | some off =>
    match astimezoneUTC dt off with
    | some dt2 => .ok (renderDT dt2)
    | none => .error "OverflowError"

/-- `format_created_timestamp`. -/
def formatCreatedTimestamp (raw : String) : Except String String :=
  if raw = "" then .ok ""
  else
    let text := pyStripL raw.data
    if text.isEmpty then .ok ""
    else
      let isoCandidate :=
        if text.getLast? = some 'Z' && text.contains 'T' then
          replaceAllFuel "Z".data "+00:00".data text.length text
        else text
      match parseIso isoCandidate with
      | some dt => finishDT dt
      | none =>
        match parseDocker text with
        | some dt => finishDT dt
        | none =>
          if 19 ≤ text.length then
            match parse19 (text.take 19) with
            | some dt => finishDT dt
            | none => .ok ⟨text⟩
          else .ok ⟨text⟩

/-! ## The stored record and `save_config` (src/utils.py lines 404-475)

A record saved by this program has exactly the fields below; `save_config`
also pops the legacy `project_alias` key.  `none` models an absent key. -/

structure ConfigRecord where
  ports : Option (List String) := none
  image : Option String := none
  dockerCmd : Option String := none
  projectPath : Option String := none
  startupCmd : Option String := none
  volumes : Option (List String) := none
  socket : Option Bool := none
  createdAt : Option String := none
  persist : Option Bool := none
  projectAlias : Option String := none
deriving Repr, DecidableEq

/-- The optional command-line fields of `save_config` (argv positions 4-12;
`socket_state` is `None` when the argument is absent). -/
structure SaveArgs where
  ports : String := ""
  image : String := ""
  dockerCmd : String := ""
  projectPath : String := ""
  startupCmd : String := ""
  socketState : Option String := none
  createdAt : String := ""
  persist : String := ""
  volumes : String := ""
deriving Repr, DecidableEq

/-- Python truthiness of `cfg.get("created_at")`. -/
def truthyStr : Option String → Bool
  | none => false
  | some s => s ≠ ""

/-- The truthy-string set used for `persist`. -/
def persistTruthy : List String := ["true", "1", "yes", "on"]

/-- One `save_config` call on a single record.  `old = none` models
`container_name not in data` (the code then starts from `{}`); `nowTs` is
the `datetime.now(timezone.utc).replace(microsecond=0).isoformat()
.replace("+00:00", "Z")` string computed at call time.
The source mutates `cfg` with a sequence of conditional writes; every
statement touches a distinct key and no statement reads a key written
earlier in the same call, so the sequence is equivalent to the record
literal below with one conditional per field (each conditional is the
corresponding source statement). -/
def saveRecord (a : SaveArgs) (nowTs : String) (old : Option ConfigRecord) :
    ConfigRecord :=
  let cfg := old.getD {}
  { ports :=
      if a.ports ≠ "" then
        some (((pySplitWs a.ports).filter (· ≠ "")).map
          fun p => if hasColon p then p else p ++ ":" ++ p)
      else cfg.ports
    image := if a.image ≠ "" then some a.image else cfg.image
    dockerCmd := if a.dockerCmd ≠ "" then some a.dockerCmd else cfg.dockerCmd
    projectPath := if a.projectPath ≠ "" then some a.projectPath else none
    startupCmd := if a.startupCmd ≠ "" then some a.startupCmd else none
    volumes :=
      if a.volumes ≠ "" then
        some ((pySplitPipes a.volumes).filter (· ≠ ""))
      else none
    projectAlias := none
    socket :=
      match a.socketState with
      | none => cfg.socket
      | some s =>
        let socketValue := pyLower (pyStrip s)
        if socketValue = "true" then some true
        else if socketValue = "false" then some false
        else none
    createdAt :=
      let createdAt := normalizeIsoTimestamp a.createdAt
      if createdAt ≠ "" then some createdAt
      else if truthyStr cfg.createdAt then cfg.createdAt
      else some (normalizeIsoTimestamp nowTs)
    persist :=
      some (persistTruthy.contains
        (if a.persist ≠ "" then pyLower (pyStrip a.persist) else "")) }

/-- The whole JSON document, keyed by container name, and one
`save_config` call on it (read-modify-write of a single key). -/
def saveConfigDoc (doc : String → Option ConfigRecord) (name : String)
    (a : SaveArgs) (nowTs : String) : String → Option ConfigRecord :=
  Function.update doc name (some (saveRecord a nowTs (doc name)))

/-! ## Port and volume normalization (src/utils.py lines 969-1017) -/

/-- The `str | list[str]` union accepted by the normalizers; a JSON value
absent from the record arrives as the default `""`. -/
inductive PyVal where
  | str (s : String)
  | list (l : List String)
deriving Repr, DecidableEq

/-- Python truthiness of a `str | list` value (`if not ports: ...`). -/
def PyVal.falsy : PyVal → Bool
  | .str s => s = ""
  | .list l => l.isEmpty

/-- `normalize_port`: normalize a port mapping to `host:container`. -/
def normalizePort (port : String) : String :=
  if port = "" then ""
  else
    let port := pyStrip port
    if hasColon port then port else port ++ ":" ++ port

/-- `normalize_ports_list`: sorted de-duplicated space-separated string. -/
def normalizePortsList (ports : PyVal) : String :=
  if ports.falsy then ""
  else
    let portsList :=
      match ports with
      | .str s => ((pySplitWs s).map pyStrip).filter (· ≠ "")
      | .list l => (l.filter (· ≠ "")).map pyStrip
    joinSpace (pySortedSet ((portsList.filter (· ≠ "")).map normalizePort))

/-- The `volumes_list` local of `normalize_volumes_list` before the
docker-socket filter: the `str`/`list` branches of the source. -/
def volumesListOf : PyVal → List String
  | .str s =>
    if pyContains s "|||" then ((pySplitPipes s).map pyStrip).filter (· ≠ "")
    else if pyStrip s ≠ "" then [pyStrip s] else []
  | .list l => (l.filter (· ≠ "")).map pyStrip

/-- The docker-socket filter of `normalize_volumes_list` (lines
1004-1010): an entry survives when it is non-empty, is not the literal
socket mount, and does not contain `docker.sock` anywhere. -/
def socketFilter (l : List String) : List String :=
  l.filter fun v =>
    v ≠ "" && v ≠ "/var/run/docker.sock:/var/run/docker.sock" &&
      !(pyContains v "docker.sock")

/-- `all_volumes` of `normalize_volumes_list`: mount entries (with `:`)
sorted first, excluded entries (no `:`) sorted after. -/
def sortedVolumesOf (volumes : PyVal) : List String :=
  let volumesList := socketFilter (volumesListOf volumes)
  pySorted (volumesList.filter fun v => hasColon v) ++
    pySorted (volumesList.filter fun v => !(hasColon v))

/-- `normalize_volumes_list`: docker-socket entries filtered out, mount
entries sorted first, excluded entries sorted after, joined with `|||`. -/
def normalizeVolumesList (volumes : PyVal) : String :=
  if volumes.falsy then ""
  else
    let allVolumes := sortedVolumesOf volumes
    if allVolumes.isEmpty then "" else joinPipes allVolumes

/-! ## `compare_configs` (src/utils.py lines 1093-1186) -/

/-- The `None | bool | str` values `normalize_socket` accepts. -/
inductive SockVal where
  | noneV
  | bool (b : Bool)
  | str (s : String)
deriving Repr, DecidableEq

/-- The inner `normalize_socket` of `compare_configs`. -/
def normalizeSocket : SockVal → String
  | .noneV => ""
  | .bool b => if b then "true" else "false"
  | .str s =>
    let valStr := pyLower (pyStrip s)
    if valStr = "true" || valStr = "1" || valStr = "yes" then "true"
    else if valStr = "false" || valStr = "0" || valStr = "no" then "false"
    else ""

/-- `saved_config.get("ports", "")` as a `str | list` value. -/
def ConfigRecord.portsVal (r : ConfigRecord) : PyVal :=
  match r.ports with
  | some l => .list l
  | none => .str ""

/-- `saved_config.get("volumes", "")` as a `str | list` value. -/
def ConfigRecord.volumesVal (r : ConfigRecord) : PyVal :=
  match r.volumes with
  | some l => .list l
  | none => .str ""

/-- `saved_config.get("socket")`. -/
def ConfigRecord.socketVal (r : ConfigRecord) : SockVal :=
  match r.socket with
  | some b => .bool b
  | none => .noneV

/-- The JSON object printed by `compare_configs` (`old_values` keeps the
insertion order of `changes`). -/
structure CompareResult where
  differs : Bool
  changes : List String
  oldValues : List (String × String)
deriving Repr, DecidableEq

/-- `compare_configs` on one saved record and the candidate argument
strings.  `saved = none` collapses the three early-return cases of the
source (missing file, parse error, missing or empty record), all of which
print `differs=true` with empty `changes`. -/
def compareConfigs (saved : Option ConfigRecord)
    (newPorts newImage newDockerCmd newProjectPath newSocket newVolumes :
      String) : CompareResult :=
  match saved with
  | none => { differs := true, changes := [], oldValues := [] }
  | some cfg =>
    let savedPortsNorm := normalizePortsList cfg.portsVal
    let newPortsNorm := normalizePortsList (.str newPorts)
    let savedImage := cfg.image.getD ""
    let savedDockerCmd := cfg.dockerCmd.getD ""
    let savedProjectPath := cfg.projectPath.getD ""
    let savedSocket := normalizeSocket cfg.socketVal
    let newSocketNorm := normalizeSocket (.str newSocket)
    let savedVolumesNorm := normalizeVolumesList cfg.volumesVal
    let newVolumesNorm := normalizeVolumesList (.str newVolumes)
    let entries :=
      (if savedPortsNorm ≠ newPortsNorm then [("ports", savedPortsNorm)] else [])
      ++ (if savedImage ≠ newImage then [("image", savedImage)] else [])
      ++ (if savedDockerCmd ≠ newDockerCmd then [("docker", savedDockerCmd)]
          else [])
      ++ (if savedProjectPath ≠ newProjectPath then
            [("project", savedProjectPath)] else [])
      ++ (if savedSocket ≠ newSocketNorm then [("socket", savedSocket)] else [])
      ++ (if savedVolumesNorm ≠ newVolumesNorm then
            [("volumes", savedVolumesNorm)] else [])
    { differs := !entries.isEmpty
      changes := entries.map (·.1)
      oldValues := entries }

/-! ## `resolve_index` and the `list_containers` row order
(src/utils.py lines 491-568 and 777-807)

Both read `|||`-delimited status lines from stdin and the stored document,
and sort the union of the names.  `resolve_index` keeps `parts[0]` of
every non-blank line (`len(parts) >= 1` is always true), while
`list_containers` keeps a line's name only when `len(parts) >= 2`. -/

/-- The names `resolve_index` collects from the piped lines. -/
def resolveDockerNames (lines : List String) : List String :=
  (lines.filter fun l => pyStrip l ≠ "").map fun l =>
    ((pySplitPipes (pyStrip l)).headD "")

/-- The names `list_containers` collects from the piped lines. -/
def listDockerNames (lines : List String) : List String :=
  lines.filterMap fun l =>
    let t := pyStrip l
    if t = "" then none
    else
      let parts := pySplitPipes t
      if parts.length ≥ 2 then some (parts.headD "") else none

/-- `sorted(set(docker_containers) | set(config_data))` in `resolve_index`. -/
def resolveCombinedNames (lines configNames : List String) : List String :=
  pySortedSet (resolveDockerNames lines ++ configNames)

/-- The sorted name list over which `list_containers` enumerates its rows
(the union of live names and stored names). -/
def listRowNames (lines configNames : List String) : List String :=
  pySortedSet (listDockerNames lines ++ configNames)

/-- `resolve_index` for an already-parsed positive index `k` (the string
`int()` parse and the `index_num <= 0` guard both print `""`; out of
range also prints `""`). -/
def resolveIndex (lines configNames : List String) (k : Nat) : String :=
  let combined := resolveCombinedNames lines configNames
  if 1 ≤ k ∧ k ≤ combined.length then combined.getD (k - 1) "" else ""

/-! ## `normalize_volumes` (src/utils.py lines 1020-1090)

The pure core of the command: `home` stands for `os.path.expanduser("~")`
and `cwd` for `os.getcwd()`, both taken from the environment at run
time. -/

def normalizeVolumes (volumes containerName projectPath home cwd : String) :
    String :=
  if volumes = "" then ""
  else
    let volumeList := ((pySplitPipes volumes).map pyStrip).filter (· ≠ "")
    let normalizedList := volumeList.filterMap fun vol =>
      if vol = "" || vol = "/var/run/docker.sock:/var/run/docker.sock" then
        none
      else
        let expandedVol :=
          if pyContains vol "__PROJECT_PATH__" && projectPath ≠ "" then
            pyReplaceAll vol "__PROJECT_PATH__" projectPath
          else vol
        let expandedVol :=
          if pyContains vol "__HOME__" then
            pyReplaceAll expandedVol "__HOME__" home
          else expandedVol
        let expandedVol :=
          if hasColon expandedVol then
            let sd := pySplitColon1 expandedVol
            let source :=
              if pyStartsWith sd.1 "./" then
                (if projectPath ≠ "" then projectPath else cwd) ++
                  ⟨sd.1.data.drop 1⟩
              else sd.1
            source ++ ":" ++ sd.2.getD ""
          else expandedVol
        let expandedVol :=
          if hasColon expandedVol then
            let sd := pySplitColon1 expandedVol
            let source :=
              if !pyStartsWith sd.1 "/" && !pyStartsWith sd.1 "." then
                if !pyStartsWith sd.1 (containerName ++ ".") then
                  containerName ++ "." ++ sd.1
                else sd.1
              else sd.1
            source ++ ":" ++ sd.2.getD ""
          else
            if !pyStartsWith expandedVol "/" && !pyStartsWith expandedVol "." then
              if !pyStartsWith expandedVol (containerName ++ ".") then
                containerName ++ "." ++ expandedVol
              else expandedVol
            else expandedVol
        let collapsedVol :=
          if projectPath ≠ "" && pyStartsWith expandedVol projectPath then
            pyReplaceOnce expandedVol projectPath "__PROJECT_PATH__"
          else expandedVol
        let collapsedVol :=
          if pyStartsWith collapsedVol home then
            pyReplaceOnce collapsedVol home "__HOME__"
          else collapsedVol
        some collapsedVol
    let mountVolumes := pySorted (normalizedList.filter fun v => hasColon v)
    let excludedVolumes :=
      pySorted (normalizedList.filter fun v => !(hasColon v))
    let allVolumes := mountVolumes ++ excludedVolumes
    if allVolumes.isEmpty then "" else joinPipes allVolumes

/-! ## `load_config` (src/utils.py lines 376-384)

The file system is abstracted to the outcome of `open` + `json.load`:
missing file, malformed JSON, or a parsed JSON value.  `load_config`
catches `FileNotFoundError`, `json.JSONDecodeError` and `KeyError`; an
`AttributeError` from `data.get` (document parsed to a non-object) is not
caught and escapes as a fault. -/

inductive JsonVal where
  | null
  | bool (b : Bool)
  | num (n : Int)
  | str (s : String)
  | arr (items : List JsonVal)
  | obj (fields : List (String × JsonVal))
deriving Repr

/-- A JSON string literal as `json.dumps` renders it (the records this
program writes contain no characters that need escaping). -/
def jsonStrLit (s : String) : String := "\"" ++ s ++ "\""

/-- Compact `json.dumps` with the default `", "`/`": "` separators and
insertion key order. -/
def jsonDump : JsonVal → String
  | .null => "null"
  | .bool b => if b then "true" else "false"
  | .num n => toString n
  | .str s => jsonStrLit s
  | .arr items => "[" ++ String.intercalate ", "
      (items.attach.map fun x => jsonDump x.1) ++ "]"
  | .obj fields => "\x7b" ++ String.intercalate ", "
      (fields.attach.map fun x => jsonStrLit x.1.1 ++ ": " ++ jsonDump x.1.2)
      ++ "\x7d"
termination_by v => sizeOf v
decreasing_by
  · have := List.sizeOf_lt_of_mem x.2
    simp only [JsonVal.arr.sizeOf_spec]
    omega
  · have h1 := List.sizeOf_lt_of_mem x.2
    have h2 : sizeOf x.1.2 < sizeOf x.1 := by
      obtain ⟨⟨a, b⟩, hm⟩ := x
      simp
    simp only [JsonVal.obj.sizeOf_spec]
    omega

/-- `dict.get` on a parsed JSON object (duplicate keys: last one wins,
as in Python's JSON decoder). -/
def jsonObjGet (fields : List (String × JsonVal)) (key : String) :
    Option JsonVal :=
  ((fields.filter fun kv => kv.1 == key).getLast?).map fun kv => kv.2

/-- Outcome of `open(config_file)` + `json.load(f)`. -/
inductive FileState where
  | missing
  | invalid
  | parsed (v : JsonVal)

/-- `load_config`: the string printed to stdout, or `.error` for an
uncaught exception. -/
def loadConfig (file : FileState) (containerName : String) :
    Except String String :=
  match file with
  | .missing => .ok "{}"
  | .invalid => .ok "{}"
  | .parsed (.obj fields) =>
    .ok (jsonDump ((jsonObjGet fields containerName).getD (.obj [])))
  | .parsed _ => .error "AttributeError"

/-! ## Supporting lemmas about `save_config` -/

theorem saveRecord_ports (a : SaveArgs) (nowTs : String)
    (old : Option ConfigRecord) :
    (saveRecord a nowTs old).ports =
      if a.ports ≠ "" then
        some (((pySplitWs a.ports).filter (· ≠ "")).map
          fun p => if hasColon p then p else p ++ ":" ++ p)
      else (old.getD {}).ports := rfl

theorem saveRecord_image (a : SaveArgs) (nowTs : String)
    (old : Option ConfigRecord) :
    (saveRecord a nowTs old).image =
      if a.image ≠ "" then some a.image else (old.getD {}).image := rfl

theorem saveRecord_dockerCmd (a : SaveArgs) (nowTs : String)
    (old : Option ConfigRecord) :
    (saveRecord a nowTs old).dockerCmd =
      if a.dockerCmd ≠ "" then some a.dockerCmd else (old.getD {}).dockerCmd :=
  rfl

theorem saveRecord_projectPath (a : SaveArgs) (nowTs : String)
    (old : Option ConfigRecord) :
    (saveRecord a nowTs old).projectPath =
      if a.projectPath ≠ "" then some a.projectPath else none := rfl

theorem saveRecord_startupCmd (a : SaveArgs) (nowTs : String)
    (old : Option ConfigRecord) :
    (saveRecord a nowTs old).startupCmd =
      if a.startupCmd ≠ "" then some a.startupCmd else none := rfl

theorem saveRecord_volumes (a : SaveArgs) (nowTs : String)
    (old : Option ConfigRecord) :
    (saveRecord a nowTs old).volumes =
      if a.volumes ≠ "" then some ((pySplitPipes a.volumes).filter (· ≠ ""))
      else none := rfl

theorem saveRecord_projectAlias (a : SaveArgs) (nowTs : String)
    (old : Option ConfigRecord) :
    (saveRecord a nowTs old).projectAlias = none := rfl

theorem saveRecord_socket (a : SaveArgs) (nowTs : String)
    (old : Option ConfigRecord) :
    (saveRecord a nowTs old).socket =
      match a.socketState with
      | none => (old.getD {}).socket
      | some s =>
        if pyLower (pyStrip s) = "true" then some true
        else if pyLower (pyStrip s) = "false" then some false
        else none := rfl

theorem saveRecord_createdAt (a : SaveArgs) (nowTs : String)
    (old : Option ConfigRecord) :
    (saveRecord a nowTs old).createdAt =
      if normalizeIsoTimestamp a.createdAt ≠ "" then
        some (normalizeIsoTimestamp a.createdAt)
      else if truthyStr (old.getD {}).createdAt then (old.getD {}).createdAt
      else some (normalizeIsoTimestamp nowTs) := rfl

theorem saveRecord_persist (a : SaveArgs) (nowTs : String)
    (old : Option ConfigRecord) :
    (saveRecord a nowTs old).persist =
      some (persistTruthy.contains
        (if a.persist ≠ "" then pyLower (pyStrip a.persist) else "")) := rfl

theorem configRecordExt {r r' : ConfigRecord}
    (h1 : r.ports = r'.ports) (h2 : r.image = r'.image)
    (h3 : r.dockerCmd = r'.dockerCmd) (h4 : r.projectPath = r'.projectPath)
    (h5 : r.startupCmd = r'.startupCmd) (h6 : r.volumes = r'.volumes)
    (h7 : r.socket = r'.socket) (h8 : r.createdAt = r'.createdAt)
    (h9 : r.persist = r'.persist) (h10 : r.projectAlias = r'.projectAlias) :
    r = r' := by
  cases r; cases r'; simp_all

/-- Saving the same arguments on top of a fresh save rewrites every field
to the same value (the second call's `now` timestamp is never used because
the first call always leaves a non-empty `created_at`). -/
theorem saveRecord_idem (a : SaveArgs) (now1 now2 : String)
    (h : normalizeIsoTimestamp now1 ≠ "") (old : Option ConfigRecord) :
    saveRecord a now2 (some (saveRecord a now1 old)) = saveRecord a now1 old := by
  apply configRecordExt
  · simp only [saveRecord_ports, Option.getD_some]
    by_cases hp : a.ports = "" <;> simp [hp]
  · simp only [saveRecord_image, Option.getD_some]
    by_cases hi : a.image = "" <;> simp [hi]
  · simp only [saveRecord_dockerCmd, Option.getD_some]
    by_cases hd : a.dockerCmd = "" <;> simp [hd]
  · simp only [saveRecord_projectPath]
  · simp only [saveRecord_startupCmd]
  · simp only [saveRecord_volumes]
  · simp only [saveRecord_socket, Option.getD_some]
    cases hs : a.socketState <;> simp
  · simp only [saveRecord_createdAt, Option.getD_some]
    by_cases hca : normalizeIsoTimestamp a.createdAt = ""
    · simp only [hca, ne_eq, not_true_eq_false, if_false]
      by_cases ht : truthyStr (old.getD {}).createdAt
      · simp [ht]
      · have hnow : truthyStr (some (normalizeIsoTimestamp now1)) = true := by
          simp [truthyStr, h]
        simp [ht, hnow]
    · simp [hca]
  · simp only [saveRecord_persist]
  · simp only [saveRecord_projectAlias]


/-! ## Supporting lemmas for `format_created_timestamp` -/

instance {e a : Type} [DecidableEq e] [DecidableEq a] :
    DecidableEq (Except e a) := fun x y =>
  match x, y with
  | .ok v, .ok w =>
    if h : v = w then isTrue (by rw [h])
    else isFalse (by intro hc; injection hc; contradiction)
  | .error v, .error w =>
    if h : v = w then isTrue (by rw [h])
    else isFalse (by intro hc; injection hc; contradiction)
  | .ok _, .error _ => isFalse (by intro hc; injection hc)
  | .error _, .ok _ => isFalse (by intro hc; injection hc)

/-- The in-range facts every rendered `datetime` enjoys. -/
def ValidOut (dt : PyDateTime) : Prop :=
  1 ≤ dt.year ∧ dt.year ≤ 9999 ∧ 1 ≤ dt.month ∧ dt.month ≤ 12 ∧
    1 ≤ dt.day ∧ dt.day ≤ 31 ∧ dt.hour ≤ 23 ∧ dt.minute ≤ 59

set_option maxRecDepth 4000 in
theorem monthDayOf_bounds : ∀ rem < 365, ∀ leap : Bool,
    1 ≤ (monthDayOf rem leap).1 ∧ (monthDayOf rem leap).1 ≤ 12 ∧
      1 ≤ (monthDayOf rem leap).2 ∧ (monthDayOf rem leap).2 ≤ 31 := by decide

theorem ord2ymd_bounds (n : Nat) (hn1 : 1 ≤ n) (hn2 : n ≤ 3652059) :
    1 ≤ (ord2ymd n).1 ∧ (ord2ymd n).1 ≤ 9999 ∧ 1 ≤ (ord2ymd n).2.1 ∧
      (ord2ymd n).2.1 ≤ 12 ∧ 1 ≤ (ord2ymd n).2.2 ∧ (ord2ymd n).2.2 ≤ 31 := by
  simp only [ord2ymd]
  set n0 := n - 1 with hn0
  set n400 := n0 / 146097 with hA
  set r1 := n0 % 146097 with hB
  set n100 := r1 / 36524 with hC
  set r2 := r1 % 36524 with hD
  set n4 := r2 / 1461 with hE
  set r3 := r2 % 1461 with hF
  set n1 := r3 / 365 with hG
  set rem := r3 % 365 with hH
  have hub : n0 ≤ 3652058 := by omega
  have e400 : 146097 * n400 + r1 = n0 := by
    rw [hA, hB]; exact Nat.div_add_mod n0 146097
  have m400 : r1 < 146097 := by rw [hB]; exact Nat.mod_lt n0 (by omega)
  have e100 : 36524 * n100 + r2 = r1 := by
    rw [hC, hD]; exact Nat.div_add_mod r1 36524
  have m100 : r2 < 36524 := by rw [hD]; exact Nat.mod_lt r1 (by omega)
  have e4 : 1461 * n4 + r3 = r2 := by
    rw [hE, hF]; exact Nat.div_add_mod r2 1461
  have m4 : r3 < 1461 := by rw [hF]; exact Nat.mod_lt r2 (by omega)
  have e1 : 365 * n1 + rem = r3 := by
    rw [hG, hH]; exact Nat.div_add_mod r3 365
  have m1 : rem < 365 := by rw [hH]; exact Nat.mod_lt r3 (by omega)
  clear_value n0 n400 r1 n100 r2 n4 r3 n1 rem
  by_cases hsp : (n1 = 4 || n100 = 4) = true
  · simp only [hsp, if_true]
    simp only [Bool.or_eq_true, decide_eq_true_eq] at hsp
    refine ⟨by omega, by omega, by omega, by omega, by omega, by omega⟩
  · simp only [hsp, Bool.false_eq_true, if_false]
    have hmd := monthDayOf_bounds rem m1
      (decide (n1 = 3) && (decide (n4 ≠ 24) || decide (n100 = 3)))
    simp only [Bool.or_eq_true, decide_eq_true_eq, not_or] at hsp
    exact ⟨by omega, by omega, hmd.1, hmd.2.1, hmd.2.2.1, hmd.2.2.2⟩

theorem astimezoneUTC_valid (dt : PyDateTime) (off : Int) (dt2 : PyDateTime)
    (h : astimezoneUTC dt off = some dt2) : ValidOut dt2 := by
  unfold astimezoneUTC at h
  by_cases h1 : ((ymd2ord dt.year dt.month dt.day * 86400 + dt.hour * 3600 +
      dt.minute * 60 + dt.second) * 1000000 + dt.micro : Nat) - off <
      (86400000000 : Int)
  · simp only [h1, if_true] at h
    cases h
  · simp only [h1, if_false] at h
    set t := (((ymd2ord dt.year dt.month dt.day * 86400 + dt.hour * 3600 +
      dt.minute * 60 + dt.second) * 1000000 + dt.micro : Nat) -
        off : Int).toNat with ht
    by_cases h2 : 3652059 < t / 86400000000
    · simp only [h2, if_true] at h
      cases h
    · simp only [h2, if_false] at h
      have hdlo : 1 ≤ t / 86400000000 := by
        have : (86400000000 : Int) ≤ ((ymd2ord dt.year dt.month dt.day *
            86400 + dt.hour * 3600 + dt.minute * 60 + dt.second) * 1000000 +
            dt.micro : Nat) - off := by omega
        have ht2 : 86400000000 ≤ t := by
          rw [ht]
          omega
        omega
      have hdhi : t / 86400000000 ≤ 3652059 := by omega
      have hb := ord2ymd_bounds (t / 86400000000) hdlo hdhi
      have hrem : t % 86400000000 < 86400000000 := Nat.mod_lt t (by omega)
      cases h
      refine ⟨hb.1, hb.2.1, hb.2.2.1, hb.2.2.2.1, hb.2.2.2.2.1,
        hb.2.2.2.2.2, ?_, ?_⟩
      · show t % 86400000000 / 3600000000 ≤ 23
        omega
      · show t % 86400000000 % 3600000000 / 60000000 ≤ 59
        omega

theorem daysInMonth_le (y m : Nat) : daysInMonth y m ≤ 31 := by
  unfold daysInMonth daysInMonthTab
  split_ifs <;> omega

theorem mkDT_valid (r : RawDT) (dt : PyDateTime) (h : mkDT r = some dt) :
    ValidOut dt := by
  unfold mkDT at h
  by_cases hv : validDT r = true
  · simp only [hv, if_true] at h
    cases h
    unfold validDT at hv
    simp only [Bool.and_eq_true, decide_eq_true_eq] at hv
    have hd := daysInMonth_le r.y r.m
    exact ⟨hv.1.1.1.1.1.1.1.1.1.1, hv.1.1.1.1.1.1.1.1.1.2,
      hv.1.1.1.1.1.1.1.1.2, hv.1.1.1.1.1.1.1.2, hv.1.1.1.1.1.1.2,
      le_trans hv.1.1.1.1.1.2 hd, hv.1.1.1.1.2, hv.1.1.1.2⟩
  · simp [hv] at h

theorem bindOption_valid {α : Type} (e : Option α) (f : α → Option PyDateTime)
    (hf : ∀ a dt, f a = some dt → ValidOut dt) :
    ∀ dt, e.bind f = some dt → ValidOut dt := by
  intro dt h
  cases e with
  | none => simp at h
  | some a => exact hf a dt (by simpa using h)

theorem parseIso_valid (l : List Char) (dt : PyDateTime)
    (h : parseIso l = some dt) : ValidOut dt := by
  unfold parseIso at h
  refine bindOption_valid _ _ ?_ dt h
  rintro ⟨y, m, d, rest⟩ dt2 h2
  dsimp only at h2
  cases rest with
  | nil => exact mkDT_valid _ _ h2
  | cons sep timeRest =>
    refine bindOption_valid _ _ ?_ dt2 h2
    rintro t dt3 h3
    exact mkDT_valid _ _ h3

theorem parseDocker_valid (l : List Char) (dt : PyDateTime)
    (h : parseDocker l = some dt) : ValidOut dt := by
  unfold parseDocker at h
  refine bindOption_valid _ _ ?_ dt h
  rintro ⟨y, r1⟩ dt h
  dsimp only at h
  refine bindOption_valid _ _ ?_ dt h
  rintro r2 dt h
  refine bindOption_valid _ _ ?_ dt h
  rintro ⟨m, r3⟩ dt h
  dsimp only at h
  refine bindOption_valid _ _ ?_ dt h
  rintro r4 dt h
  refine bindOption_valid _ _ ?_ dt h
  rintro ⟨d, r5⟩ dt h
  dsimp only at h
  refine bindOption_valid _ _ ?_ dt h
  rintro r6 dt h
  refine bindOption_valid _ _ ?_ dt h
  rintro ⟨hh, r7⟩ dt h
  dsimp only at h
  refine bindOption_valid _ _ ?_ dt h
  rintro r8 dt h
  refine bindOption_valid _ _ ?_ dt h
  rintro ⟨mi, r9⟩ dt h
  dsimp only at h
  refine bindOption_valid _ _ ?_ dt h
  rintro r10 dt h
  refine bindOption_valid _ _ ?_ dt h
  rintro ⟨ss, r11⟩ dt h
  dsimp only at h
  refine bindOption_valid _ _ ?_ dt h
  rintro r12 dt h
  refine bindOption_valid _ _ ?_ dt h
  rintro ⟨off, r13⟩ dt h
  dsimp only at h
  refine bindOption_valid _ _ ?_ dt h
  rintro r14 dt h
  refine bindOption_valid _ _ ?_ dt h
  rintro r15 dt h
  cases r15 with
  | nil => exact mkDT_valid _ _ h
  | cons a b => simp at h

theorem parseLayout19_valid (sepT : Bool) (l : List Char) (dt : PyDateTime)
    (h : parseLayout19 sepT l = some dt) : ValidOut dt := by
  unfold parseLayout19 at h
  refine bindOption_valid _ _ ?_ dt h
  rintro ⟨y, r1⟩ dt h
  dsimp only at h
  refine bindOption_valid _ _ ?_ dt h
  rintro r2 dt h
  refine bindOption_valid _ _ ?_ dt h
  rintro ⟨m, r3⟩ dt h
  dsimp only at h
  refine bindOption_valid _ _ ?_ dt h
  rintro r4 dt h
  refine bindOption_valid _ _ ?_ dt h
  rintro ⟨d, r5⟩ dt h
  dsimp only at h
  refine bindOption_valid _ _ ?_ dt h
  rintro r6 dt h
  refine bindOption_valid _ _ ?_ dt h
  rintro ⟨hh, r7⟩ dt h
  dsimp only at h
  refine bindOption_valid _ _ ?_ dt h
  rintro r8 dt h
  refine bindOption_valid _ _ ?_ dt h
  rintro ⟨mi, r9⟩ dt h
  dsimp only at h
  refine bindOption_valid _ _ ?_ dt h
  rintro r10 dt h
  refine bindOption_valid _ _ ?_ dt h
  rintro ⟨ss, r11⟩ dt h
  dsimp only at h
  cases r11 with
  | nil => exact mkDT_valid _ _ h
  | cons a b => simp at h

theorem parse19_valid (l : List Char) (dt : PyDateTime)
    (h : parse19 l = some dt) : ValidOut dt := by
  unfold parse19 at h
  cases h1 : parseLayout19 true l with
  | some dt1 =>
    rw [h1] at h
    cases h
    exact parseLayout19_valid true l _ h1
  | none =>
    rw [h1] at h
    exact parseLayout19_valid false l _ h




theorem digitC_isDigit (k : Nat) : (digitC k).isDigit = true := by
  unfold digitC
  have h : k % 10 < 10 := Nat.mod_lt k (by omega)
  set r := k % 10 with hr
  clear_value r
  interval_cases r <;> decide

theorem yearChars_all_digits (n : Nat) :
    (yearChars n).all Char.isDigit = true := by
  unfold yearChars
  split_ifs <;> simp [digitC_isDigit]

theorem yearChars_length (n : Nat) :
    1 ≤ (yearChars n).length ∧ (yearChars n).length ≤ 4 := by
  unfold yearChars
  split_ifs <;> simp

theorem takeWhile_digits_dash (ds t : List Char)
    (h : ds.all Char.isDigit = true) :
    (ds ++ '-' :: t).takeWhile Char.isDigit = ds ∧
      (ds ++ '-' :: t).dropWhile Char.isDigit = '-' :: t := by
  induction ds with
  | nil =>
    constructor
    · simp [List.takeWhile_cons]
    · simp [List.dropWhile_cons]
  | cons c cs ih =>
    simp only [List.all_cons, Bool.and_eq_true] at h
    have := ih h.2
    constructor
    · simp [List.takeWhile_cons, h.1, this.1]
    · simp [List.dropWhile_cons, h.1, this.2]

theorem isTailForm_render (m d hh mi : Nat) :
    isTailForm ('-' :: (pad2 m ++ '-' :: (pad2 d ++ ' ' :: (pad2 hh ++
      ':' :: pad2 mi)))) = true := by
  simp [pad2, isTailForm, digitC_isDigit]

theorem isRenderedForm_mk (ds rest : List Char)
    (hall : ds.all Char.isDigit = true)
    (hlen : 1 ≤ ds.length ∧ ds.length ≤ 4)
    (htail : isTailForm ('-' :: rest) = true) :
    isRenderedForm ⟨ds ++ '-' :: rest⟩ = true := by
  unfold isRenderedForm
  have htd := takeWhile_digits_dash ds rest hall
  rw [show (String.mk (ds ++ '-' :: rest)).data = ds ++ '-' :: rest from rfl]
  rw [htd.1, htd.2, htail]
  simp [hlen.1, hlen.2]

theorem isRenderedForm_renderDT (dt : PyDateTime) :
    isRenderedForm (renderDT dt) = true := by
  have hshape : renderDT dt = ⟨yearChars dt.year ++ '-' ::
      (pad2 dt.month ++ '-' :: (pad2 dt.day ++ ' ' :: (pad2 dt.hour ++
        ':' :: pad2 dt.minute)))⟩ := by
    unfold renderDT
    congr 1
    simp [List.cons_append, List.append_assoc]
  rw [hshape]
  exact isRenderedForm_mk _ _ (yearChars_all_digits dt.year)
    (yearChars_length dt.year) (isTailForm_render dt.month dt.day dt.hour
      dt.minute)




theorem finishDT_ok (dt : PyDateTime) (hdt : ValidOut dt) (out : String)
    (h : finishDT dt = .ok out) :
    ∃ dt2, ValidOut dt2 ∧ out = renderDT dt2 := by
  unfold finishDT at h
  cases ho : dt.offUs with
  | none =>
    rw [ho] at h
    injection h with h'
    exact ⟨dt, hdt, h'.symm⟩
  | some off =>
    rw [ho] at h
    dsimp only at h
    cases ha : astimezoneUTC dt off with
    | some dt2 =>
      rw [ha] at h
      injection h with h'
      exact ⟨dt2, astimezoneUTC_valid dt off dt2 ha, h'.symm⟩
    | none => rw [ha] at h; cases h

theorem finishDT_error (dt : PyDateTime) (e : String)
    (h : finishDT dt = .error e) : e = "OverflowError" := by
  unfold finishDT at h
  cases ho : dt.offUs with
  | none => rw [ho] at h; cases h
  | some off =>
    rw [ho] at h
    dsimp only at h
    cases ha : astimezoneUTC dt off with
    | some dt2 => rw [ha] at h; cases h
    | none =>
      rw [ha] at h
      injection h with h'
      exact h'.symm

theorem formatCreatedTimestamp_ok (s out : String)
    (h : formatCreatedTimestamp s = .ok out) :
    (isRenderedForm out = true ∧ ∃ dt, ValidOut dt ∧ out = renderDT dt) ∨
      out = pyStrip s := by
  simp only [formatCreatedTimestamp] at h
  by_cases h0 : s = ""
  · rw [if_pos h0] at h
    injection h with h'
    right
    rw [← h', h0]
    decide
  · rw [if_neg h0] at h
    by_cases h1 : (pyStripL s.data).isEmpty = true
    · rw [if_pos h1] at h
      injection h with h'
      right
      rw [← h']
      unfold pyStrip
      rw [List.isEmpty_iff.mp h1]
    · rw [if_neg h1] at h
      split at h
      next dt hp =>
        left
        have hv := parseIso_valid _ _ hp
        have := finishDT_ok dt hv out h
        obtain ⟨dt2, hv2, hout⟩ := this
        rw [hout]
        exact ⟨isRenderedForm_renderDT dt2, dt2, hv2, rfl⟩
      next hp =>
        split at h
        next dt hp2 =>
          left
          have hv := parseDocker_valid _ _ hp2
          obtain ⟨dt2, hv2, hout⟩ := finishDT_ok dt hv out h
          rw [hout]
          exact ⟨isRenderedForm_renderDT dt2, dt2, hv2, rfl⟩
        next hp2 =>
          by_cases h19 : 19 ≤ (pyStripL s.data).length
          · rw [if_pos h19] at h
            split at h
            next dt hp3 =>
              left
              have hv := parse19_valid _ _ hp3
              obtain ⟨dt2, hv2, hout⟩ := finishDT_ok dt hv out h
              rw [hout]
              exact ⟨isRenderedForm_renderDT dt2, dt2, hv2, rfl⟩
            next hp3 =>
              injection h with h'
              right
              rw [← h']
              rfl
          · rw [if_neg h19] at h
            injection h with h'
            right
            rw [← h']
            rfl

theorem formatCreatedTimestamp_error (s e : String)
    (h : formatCreatedTimestamp s = .error e) : e = "OverflowError" := by
  simp only [formatCreatedTimestamp] at h
  by_cases h0 : s = ""
  · rw [if_pos h0] at h; cases h
  · rw [if_neg h0] at h
    by_cases h1 : (pyStripL s.data).isEmpty = true
    · rw [if_pos h1] at h; cases h
    · rw [if_neg h1] at h
      split at h
      next dt hp => exact finishDT_error dt e h
      next hp =>
        split at h
        next dt hp2 => exact finishDT_error dt e h
        next hp2 =>
          by_cases h19 : 19 ≤ (pyStripL s.data).length
          · rw [if_pos h19] at h
            split at h
            next dt hp3 => exact finishDT_error dt e h
            next hp3 => cases h
          · rw [if_neg h19] at h; cases h

/-! ## Supporting lemmas: substrings, stripping, pipe-joining -/

theorem containsSubL_iff (n l : List Char) :
    containsSubL n l = true ↔ n <:+: l := by
  induction l with
  | nil => simp [containsSubL, List.isEmpty_iff, List.infix_nil]
  | cons c t ih =>
    simp only [containsSubL, Bool.or_eq_true, ih, List.infix_cons_iff,
      List.isPrefixOf_iff_prefix]

theorem infix_dropWhile_of (n l : List Char)
    (hne : n ≠ []) (hws : ∀ c ∈ n, pySpace c = false)
    (h : n <:+: l) : n <:+: l.dropWhile pySpace := by
  induction l with
  | nil => simpa using h
  | cons c t ih =>
    by_cases hc : pySpace c
    · rw [List.dropWhile_cons_of_pos hc]
      rcases List.infix_cons_iff.mp h with hpre | hinf
      · cases n with
        | nil => exact absurd rfl hne
        | cons a m =>
          obtain ⟨u, hu⟩ := hpre
          have ha : a = c := by injection hu
          have := hws a (List.mem_cons_self a m)
          rw [ha] at this
          rw [this] at hc
          exact absurd hc (by simp)
      · exact ih hinf
    · rwa [List.dropWhile_cons_of_neg hc]

theorem infix_pyStripL_of (n l : List Char)
    (hne : n ≠ []) (hws : ∀ c ∈ n, pySpace c = false)
    (h : n <:+: l) : n <:+: pyStripL l := by
  unfold pyStripL
  have h1 : n <:+: l.dropWhile pySpace := infix_dropWhile_of n l hne hws h
  have h2 : n.reverse <:+: (l.dropWhile pySpace).reverse :=
    List.reverse_infix.mpr h1
  have h3 : n.reverse ≠ [] := by simpa using hne
  have h4 : ∀ c ∈ n.reverse, pySpace c = false := by
    intro c hc; exact hws c (List.mem_reverse.mp hc)
  have h5 := infix_dropWhile_of n.reverse _ h3 h4 h2
  have h6 : (n.reverse).reverse <:+:
      ((l.dropWhile pySpace).reverse.dropWhile pySpace).reverse :=
    List.reverse_infix.mpr h5
  simpa using h6

theorem pyStripL_infix_self (l : List Char) : pyStripL l <:+: l := by
  unfold pyStripL
  have h1 : (l.dropWhile pySpace).reverse.dropWhile pySpace <:+
      (l.dropWhile pySpace).reverse := List.dropWhile_suffix pySpace
  have h2 : ((l.dropWhile pySpace).reverse.dropWhile pySpace).reverse <+:
      ((l.dropWhile pySpace).reverse).reverse :=
    List.reverse_prefix.mpr h1
  have h3 : ((l.dropWhile pySpace).reverse.dropWhile pySpace).reverse <+:
      l.dropWhile pySpace := by simpa using h2
  exact h3.isInfix.trans (List.dropWhile_suffix pySpace).isInfix

/-- Stripping surrounding whitespace neither creates nor destroys an
occurrence of a whitespace-free, non-empty needle. -/
theorem containsSubL_pyStripL (n l : List Char)
    (hne : n ≠ []) (hws : ∀ c ∈ n, pySpace c = false) :
    containsSubL n (pyStripL l) = containsSubL n l := by
  by_cases h : containsSubL n l = true
  · have := infix_pyStripL_of n l hne hws ((containsSubL_iff n l).mp h)
    rw [h, (containsSubL_iff n _).mpr this]
  · by_cases h2 : containsSubL n (pyStripL l) = true
    · exact absurd ((containsSubL_iff n l).mpr
        (((containsSubL_iff n _).mp h2).trans (pyStripL_infix_self l))) h
    · rw [Bool.eq_false_iff.mpr h, Bool.eq_false_iff.mpr h2]

theorem prefix_append_pipe (n as bs : List Char)
    (h : n <+: as ++ '|' :: bs) : n <+: as ∨ '|' ∈ n := by
  induction as generalizing n with
  | nil =>
    cases n with
    | nil => left; exact List.nil_prefix
    | cons a m =>
      obtain ⟨u, hu⟩ := h
      have : a = '|' := by injection hu
      right; rw [this]; exact List.mem_cons_self _ _
  | cons c t ih =>
    cases n with
    | nil => left; exact List.nil_prefix
    | cons a m =>
      obtain ⟨u, hu⟩ := h
      have ha : a = c := by injection hu
      have hm : m <+: t ++ '|' :: bs := by
        refine ⟨u, ?_⟩
        injection hu
      rcases ih m hm with h1 | h1
      · left
        obtain ⟨u2, hu2⟩ := h1
        exact ⟨u2, by rw [ha, List.cons_append, hu2]⟩
      · right; exact List.mem_cons_of_mem _ h1

theorem not_infix_cons_pipe (n l : List Char)
    (hne : n ≠ []) (hp : '|' ∉ n) (h : ¬ n <:+: l) : ¬ n <:+: '|' :: l := by
  intro hif
  rcases List.infix_cons_iff.mp hif with hpre | hinf
  · cases n with
    | nil => exact hne rfl
    | cons a m =>
      obtain ⟨u, hu⟩ := hpre
      have : a = '|' := by injection hu
      exact hp (this ▸ List.mem_cons_self a m)
  · exact h hinf

theorem not_infix_append_pipe (n xs ys : List Char)
    (hne : n ≠ []) (hp : '|' ∉ n)
    (hx : ¬ n <:+: xs) (hy : ¬ n <:+: ys) : ¬ n <:+: xs ++ '|' :: ys := by
  induction xs with
  | nil => exact not_infix_cons_pipe n ys hne hp hy
  | cons c t ih =>
    intro hif
    rcases List.infix_cons_iff.mp hif with hpre | hinf
    · rcases prefix_append_pipe n (c :: t) ys hpre with h1 | h1
      · exact hx h1.isInfix
      · exact hp h1
    · exact ih (fun h2 => hx (List.infix_cons h2)) hinf

/-- A pipe-free non-empty needle occurs in a `|||`-join only if it occurs
in one of the joined pieces. -/
theorem not_infix_joinPipes (n : List Char)
    (hne : n ≠ []) (hp : '|' ∉ n) (es : List (List Char))
    (h : ∀ e ∈ es, ¬ n <:+: e) :
    ¬ n <:+: joinWithL "|||".data es := by
  induction es with
  | nil =>
    intro hif
    exact hne (List.eq_nil_of_infix_nil hif)
  | cons x rest ih =>
    cases rest with
    | nil => exact h x (List.mem_cons_self _ _)
    | cons y t =>
      have hx := h x (List.mem_cons_self _ _)
      have hrest : ¬ n <:+: joinWithL "|||".data (y :: t) :=
        ih fun e he => h e (List.mem_cons_of_mem _ he)
      have h2 : ¬ n <:+: '|' :: '|' :: joinWithL "|||".data (y :: t) :=
        not_infix_cons_pipe n _ hne hp (not_infix_cons_pipe n _ hne hp hrest)
      have h3 := not_infix_append_pipe n x _ hne hp hx h2
      show ¬ n <:+: x ++ "|||".data ++ joinWithL "|||".data (y :: t)
      intro hif
      apply h3
      simpa [List.append_assoc] using hif

/-! ## Supporting lemmas about the normalizers -/

theorem normalizePortsList_str (s : String) :
    normalizePortsList (.str s) =
      joinSpace (pySortedSet ((((pySplitWs s).map pyStrip).filter (· ≠ "")
        |>.filter (· ≠ "")).map normalizePort)) := by
  by_cases h : s = ""
  · subst h; rfl
  · simp [normalizePortsList, PyVal.falsy, h]

theorem normalizePortsList_list (l : List String) :
    normalizePortsList (.list l) =
      joinSpace (pySortedSet ((((l.filter (· ≠ "")).map pyStrip)
        |>.filter (· ≠ "")).map normalizePort)) := by
  by_cases h : l = []
  · subst h; rfl
  · simp [normalizePortsList, PyVal.falsy, h]

theorem normalizePortsList_perm {l₁ l₂ : List String} (h : List.Perm l₁ l₂) :
    normalizePortsList (.list l₁) = normalizePortsList (.list l₂) := by
  rw [normalizePortsList_list, normalizePortsList_list]
  exact congrArg joinSpace
    (pySortedSet_eq_of_perm ((((h.filter _).map _).filter _).map _))

theorem normalizePortsList_str_perm {s₁ s₂ : String}
    (h : List.Perm (pySplitWs s₁) (pySplitWs s₂)) :
    normalizePortsList (.str s₁) = normalizePortsList (.str s₂) := by
  rw [normalizePortsList_str, normalizePortsList_str]
  exact congrArg joinSpace
    (pySortedSet_eq_of_perm ((((h.map _).filter _).filter _).map _))

theorem mem_sortedVolumesOf_no_sock (val : PyVal) (v : String)
    (hv : v ∈ sortedVolumesOf val) : pyContains v "docker.sock" = false := by
  unfold sortedVolumesOf at hv
  have hmem : v ∈ socketFilter (volumesListOf val) := by
    rcases List.mem_append.mp hv with h | h
    · exact (List.mem_filter.mp ((List.mem_insertionSort strLe).mp h)).1
    · exact (List.mem_filter.mp ((List.mem_insertionSort strLe).mp h)).1
  have := (List.mem_filter.mp hmem).2
  simp only [Bool.and_eq_true, Bool.not_eq_true'] at this
  exact this.2

theorem normalizeVolumesList_no_sock (val : PyVal) :
    pyContains (normalizeVolumesList val) "docker.sock" = false := by
  unfold normalizeVolumesList
  by_cases hf : val.falsy
  · simp [hf]
    rfl
  · simp only [hf, Bool.false_eq_true, if_false]
    by_cases he : (sortedVolumesOf val).isEmpty
    · simp [he]
      rfl
    · simp only [he, Bool.false_eq_true, if_false]
      unfold pyContains joinPipes
      apply Bool.eq_false_iff.mpr
      rw [ne_eq, containsSubL_iff]
      apply not_infix_joinPipes _ (by decide) (by decide)
      intro e he2
      obtain ⟨w, hw, rfl⟩ := List.mem_map.mp he2
      have := mem_sortedVolumesOf_no_sock val w hw
      unfold pyContains at this
      rw [← containsSubL_iff]
      simp [this]

theorem socketFilter_volumesListOf_filter (l : List String) :
    socketFilter (volumesListOf
        (.list (l.filter fun v => !(pyContains v "docker.sock")))) =
      socketFilter (volumesListOf (.list l)) := by
  simp only [socketFilter, volumesListOf]
  rw [List.filter_comm]
  have hcongr :
      (l.filter fun v => (v ≠ "" : Bool)).filter
          (fun v => !(pyContains v "docker.sock")) =
        (l.filter fun v => (v ≠ "" : Bool)).filter
          (fun v => !(pyContains (pyStrip v) "docker.sock")) := by
    apply List.filter_congr
    intro v _
    unfold pyContains pyStrip
    rw [containsSubL_pyStripL _ _ (by decide) (by decide)]
  rw [hcongr]
  have hmap :
      ((l.filter fun v => (v ≠ "" : Bool)).filter
          (fun v => !(pyContains (pyStrip v) "docker.sock"))).map pyStrip =
        ((l.filter fun v => (v ≠ "" : Bool)).map pyStrip).filter
          (fun w => !(pyContains w "docker.sock")) := by
    rw [List.filter_map]
    rfl
  rw [hmap, List.filter_filter]
  apply List.filter_congr
  intro w _
  cases h : pyContains w "docker.sock" <;> simp [h]

theorem normalizeVolumesList_filter_sock (l : List String) :
    normalizeVolumesList
        (.list (l.filter fun v => !(pyContains v "docker.sock"))) =
      normalizeVolumesList (.list l) := by
  have hsv : sortedVolumesOf
      (.list (l.filter fun v => !(pyContains v "docker.sock"))) =
      sortedVolumesOf (.list l) := by
    unfold sortedVolumesOf
    rw [socketFilter_volumesListOf_filter]
  unfold normalizeVolumesList
  by_cases h1 : (PyVal.list l).falsy
  · have : l = [] := by simpa [PyVal.falsy, List.isEmpty_iff] using h1
    subst this
    rfl
  · by_cases h2 :
        (PyVal.list (l.filter fun v => !(pyContains v "docker.sock"))).falsy
    · have hfe : (l.filter fun v => !(pyContains v "docker.sock")) = [] := by
        simpa [PyVal.falsy, List.isEmpty_iff] using h2
      have hempty : sortedVolumesOf (.list l) = [] := by
        rw [← hsv, hfe]
        rfl
      simp [h1, h2, hempty]
    · simp [h1, h2, hsv]

theorem compare_configs_volumes_change_iff (r : ConfigRecord)
    (np ni nd npp ns nv : String) :
    ("volumes" ∈ (compareConfigs (some r) np ni nd npp ns nv).changes ↔
      normalizeVolumesList r.volumesVal ≠ normalizeVolumesList (.str nv)) := by
  simp only [compareConfigs]
  constructor
  · intro h
    intro heq
    simp only [heq, ne_eq, not_true_eq_false, if_false, List.append_nil] at h
    rcases List.mem_map.mp h with ⟨x, hx, hfst⟩
    split_ifs at hx <;> simp_all
  · intro h
    simp only [ne_eq, h, not_false_eq_true, if_true]
    refine List.mem_map.mpr
      ⟨("volumes", normalizeVolumesList r.volumesVal), ?_, rfl⟩
    simp

/-! ## Claim theorems -/

/-- **C3**: on a stored record whose per-field normalizations all equal
the candidate's, `compare_configs` reports `differs=false`, `changes=[]`;
when only the normalized port sets differ, `changes` is exactly
`["ports"]`; and `normalize_ports_list` — hence the reported diff — is
invariant under reordering the ports list on either side (stored list
or candidate string). -/
theorem compare_configs_diff_symmetry :
    (∀ (r : ConfigRecord) (np ni nd npp ns nv : String),
      normalizePortsList r.portsVal = normalizePortsList (.str np) →
      r.image.getD "" = ni →
      r.dockerCmd.getD "" = nd →
      r.projectPath.getD "" = npp →
      normalizeSocket r.socketVal = normalizeSocket (.str ns) →
      normalizeVolumesList r.volumesVal = normalizeVolumesList (.str nv) →
      (compareConfigs (some r) np ni nd npp ns nv).differs = false ∧
        (compareConfigs (some r) np ni nd npp ns nv).changes = []) ∧
    (∀ (r : ConfigRecord) (np ni nd npp ns nv : String),
      normalizePortsList r.portsVal ≠ normalizePortsList (.str np) →
      r.image.getD "" = ni →
      r.dockerCmd.getD "" = nd →
      r.projectPath.getD "" = npp →
      normalizeSocket r.socketVal = normalizeSocket (.str ns) →
      normalizeVolumesList r.volumesVal = normalizeVolumesList (.str nv) →
      (compareConfigs (some r) np ni nd npp ns nv).changes = ["ports"]) ∧
    (∀ l₁ l₂ : List String, List.Perm l₁ l₂ →
      normalizePortsList (.list l₁) = normalizePortsList (.list l₂)) ∧
    (∀ s₁ s₂ : String, List.Perm (pySplitWs s₁) (pySplitWs s₂) →
      normalizePortsList (.str s₁) = normalizePortsList (.str s₂)) := by
  refine ⟨?_, ?_, fun _ _ h => normalizePortsList_perm h,
    fun _ _ h => normalizePortsList_str_perm h⟩
  · intro r np ni nd npp ns nv hp hi hd hpp hs hv
    constructor <;> simp [compareConfigs, hp, hi, hd, hpp, hs, hv]
  · intro r np ni nd npp ns nv hp hi hd hpp hs hv
    simp [compareConfigs, hp, hi, hd, hpp, hs, hv]

/-- Witness for C3: a record stored with sorted ports matches a candidate
given in a different order with a duplicate (`differs=false`); changing
one port yields `changes=["ports"]`. -/
theorem compare_configs_diff_symmetry_witness :
    (compareConfigs
        (some { ports := some ["3000:3001", "8080:8080"], image := some "img" })
        "8080 3000:3001 8080" "img" "" "" "" "").differs = false ∧
      (compareConfigs
        (some { ports := some ["3000:3001", "8080:8080"], image := some "img" })
        "8080 3000:3001 8080" "img" "" "" "" "").changes = [] ∧
      (compareConfigs
        (some { ports := some ["3000:3001", "8080:8080"], image := some "img" })
        "9999 3000:3001" "img" "" "" "" "").changes = ["ports"] := by
  refine ⟨(compare_configs_diff_symmetry.1 _ _ _ _ _ _ _
      (by decide) (by decide) (by decide) (by decide) (by decide) (by decide)).1,
    (compare_configs_diff_symmetry.1 _ _ _ _ _ _ _
      (by decide) (by decide) (by decide) (by decide) (by decide) (by decide)).2,
    compare_configs_diff_symmetry.2.1 _ _ _ _ _ _ _
      (by decide) (by decide) (by decide) (by decide) (by decide) (by decide)⟩

/-- **C1, counterexample.**  `save_config` with ports
`"8080 3000:3001 8080"` stores `["8080:8080", "3000:3001", "8080:8080"]`
— input order, duplicate kept — not the claimed sorted de-duplicated
`["3000:3001", "8080:8080"]`. -/
theorem save_config_ports_counterexample :
    (saveRecord { ports := "8080 3000:3001 8080" } "t" none).ports =
        some ["8080:8080", "3000:3001", "8080:8080"] ∧
      (saveRecord { ports := "8080 3000:3001 8080" } "t" none).ports ≠
        some ["3000:3001", "8080:8080"] := by
  constructor
  · decide
  · decide

/-- **C1** (amended): for every non-empty ports argument, `save_config`
stores exactly the whitespace-separated entries with each bare entry `N`
expanded to `N:N`, in their original order and with duplicates retained
(sorting and de-duplication happen only later, in `normalize_ports_list`
during comparison); an empty ports argument leaves the stored field
untouched. -/
theorem save_config_ports_stored_verbatim (a : SaveArgs) (nowTs : String)
    (old : Option ConfigRecord) (h : a.ports ≠ "") :
    (saveRecord a nowTs old).ports =
      some (((pySplitWs a.ports).filter (· ≠ "")).map
        fun p => if hasColon p then p else p ++ ":" ++ p) := by
  simp [saveRecord_ports, h]

/-- Witness for C1 at the claim's own input. -/
theorem save_config_ports_stored_verbatim_witness :
    (saveRecord { ports := "8080 3000:3001 8080" } "t" none).ports =
      some ["8080:8080", "3000:3001", "8080:8080"] := by
  rw [save_config_ports_stored_verbatim _ _ _ (by decide)]
  decide

/-- **C6, counterexample.**  `persist = " true "` stores `persist = true`
even though the lowercased (but untrimmed) value `" true "` is not in
`{"true","1","yes","on"}`: the code strips before lowercasing. -/
theorem save_config_persist_strip_counterexample :
    (saveRecord { persist := " true " } "t" none).persist = some true ∧
      persistTruthy.contains (pyLower " true ") = false := by
  constructor
  · decide
  · decide

/-- **C6** (amended): passing an empty value removes `project_path`,
`startup_cmd`, `volumes` and `socket`; an empty `ports`/`image`/
`docker_cmd` leaves the stored field untouched; `persist` is always
recomputed as the boolean that is true exactly when the passed value,
*trimmed and* lowercased, is in `{"true","1","yes","on"}`. -/
theorem save_config_field_frame (a : SaveArgs) (nowTs : String)
    (r : ConfigRecord) :
    (a.projectPath = "" → (saveRecord a nowTs (some r)).projectPath = none) ∧
    (a.startupCmd = "" → (saveRecord a nowTs (some r)).startupCmd = none) ∧
    (a.volumes = "" → (saveRecord a nowTs (some r)).volumes = none) ∧
    (a.socketState = some "" → (saveRecord a nowTs (some r)).socket = none) ∧
    (a.ports = "" → (saveRecord a nowTs (some r)).ports = r.ports) ∧
    (a.image = "" → (saveRecord a nowTs (some r)).image = r.image) ∧
    (a.dockerCmd = "" → (saveRecord a nowTs (some r)).dockerCmd = r.dockerCmd) ∧
    (saveRecord a nowTs (some r)).persist =
      some (persistTruthy.contains (pyLower (pyStrip a.persist))) := by
  refine ⟨?_, ?_, ?_, ?_, ?_, ?_, ?_, ?_⟩
  · intro h; simp [saveRecord_projectPath, h]
  · intro h; simp [saveRecord_startupCmd, h]
  · intro h; simp [saveRecord_volumes, h]
  · intro h; simp [saveRecord_socket, h]; rfl
  · intro h; simp [saveRecord_ports, h]
  · intro h; simp [saveRecord_image, h]
  · intro h; simp [saveRecord_dockerCmd, h]
  · rw [saveRecord_persist]
    by_cases h : a.persist = ""
    · simp [h]; rfl
    · simp [h]

/-- Witness for C6: a concrete record and arguments exercising every
conjunct. -/
theorem save_config_field_frame_witness :
    (saveRecord { socketState := some "" } "t"
        (some { ports := some ["1:1"], image := some "img",
                dockerCmd := some "podman", projectPath := some "/p",
                startupCmd := some "run", volumes := some ["a:/b"],
                socket := some true, createdAt := some "2024-01-01T00:00:00Z",
                persist := some true })).projectPath = none ∧
    (saveRecord { socketState := some "" } "t"
        (some { ports := some ["1:1"] })).socket = none ∧
    (saveRecord { socketState := some "" } "t"
        (some { ports := some ["1:1"] })).ports = some ["1:1"] := by
  refine ⟨?_, ?_, ?_⟩
  · exact (save_config_field_frame _ _ _).1 rfl
  · exact (save_config_field_frame _ _ _).2.2.2.1 rfl
  · exact (save_config_field_frame _ _ _).2.2.2.2.1 rfl

/-- **C7**: when the stored `created_at` is already a non-empty string,
saving with an empty `created_at` argument leaves it unchanged; the field
is overwritten only when the passed value normalizes to something
non-empty, and then exactly the normalized value — with the sub-second
fraction stripped by `normalize_iso_timestamp` — is stored. -/
theorem save_config_created_at_preserved (a : SaveArgs) (nowTs : String)
    (r : ConfigRecord) (s : String) (hset : r.createdAt = some s)
    (hne : s ≠ "") :
    (saveRecord a nowTs (some r)).createdAt =
      if normalizeIsoTimestamp a.createdAt = "" then some s
      else some (normalizeIsoTimestamp a.createdAt) := by
  rw [saveRecord_createdAt]
  by_cases h : normalizeIsoTimestamp a.createdAt = ""
  · simp [h, Option.getD_some, hset, truthyStr, hne]
  · simp [h]

/-- Witness for C7: preservation on an empty argument, and overwrite with
the fraction stripped on an explicit argument. -/
theorem save_config_created_at_preserved_witness :
    (saveRecord {} "t"
        (some { createdAt := some "2024-01-01T00:00:00Z" })).createdAt =
      some "2024-01-01T00:00:00Z" ∧
    (saveRecord { createdAt := "2024-02-02T10:00:00.123456Z" } "t"
        (some { createdAt := some "2024-01-01T00:00:00Z" })).createdAt =
      some "2024-02-02T10:00:00Z" := by
  constructor
  · rw [save_config_created_at_preserved _ _ _ "2024-01-01T00:00:00Z" rfl
      (by decide)]
    decide
  · rw [save_config_created_at_preserved _ _ _ "2024-01-01T00:00:00Z" rfl
      (by decide)]
    decide

/-- **C9**: saving the same field values twice in a row leaves the stored
document identical to the document after the first call (the second call
re-reads what the first wrote, every field recomputes to the same value,
and `created_at` is preserved because the first call always leaves it
non-empty).  Byte-identity on disk follows because `json.dump(...,
indent=2, sort_keys=True)` is a deterministic function of the document. -/
theorem save_config_idempotent (doc : String → Option ConfigRecord)
    (name : String) (a : SaveArgs) (now1 now2 : String)
    (h : normalizeIsoTimestamp now1 ≠ "") :
    saveConfigDoc (saveConfigDoc doc name a now1) name a now2 =
      saveConfigDoc doc name a now1 := by
  unfold saveConfigDoc
  rw [Function.update_same, saveRecord_idem a now1 now2 h,
    Function.update_idem]

/-- **C5**: `normalize_volumes("./src:/app|||data", "myctr",
"/home/u/proj")` expands `./src` against the project path, prefixes the
bare named volume `data` with the container name, re-collapses the
project-rooted source to placeholder form, and prints
`"__PROJECT_PATH__/src:/app|||myctr.data"`, mounts before excluded
entries.  The only environment dependence is `os.path.expanduser("~")`;
any absolute `home` (it starts with `/`, so it is a prefix of neither
`__PROJECT_PATH__/src:/app` nor `myctr.data`) gives this result, for
every working directory. -/
theorem normalize_volumes_roundtrip (home cwd : String)
    (h : pyStartsWith home "/" = true) :
    normalizeVolumes "./src:/app|||data" "myctr" "/home/u/proj" home cwd =
      "__PROJECT_PATH__/src:/app|||myctr.data" := by
  obtain ⟨l⟩ := home
  cases l with
  | nil => exact absurd h (by decide)
  | cons c cs =>
    have hc : c = '/' := by
      simp [pyStartsWith, List.isPrefixOf] at h
      exact h.symm
    subst hc
    simp [normalizeVolumes, pyStartsWith, List.isPrefixOf, pyContains,
      containsSubL, pySplitPipes, splitPipesL, pyStrip, pyStripL, pySpace,
      hasColon, pySplitColon1, splitFirstColonL, pyReplaceOnce, replaceOnceL,
      pySorted, pySortedSet, joinPipes, List.insertionSort, List.orderedInsert,
      strLe, strLeB]
    rfl

/-- Witness for C5 with `HOME=/root`. -/
theorem normalize_volumes_roundtrip_witness :
    pyStartsWith "/root" "/" = true ∧
      normalizeVolumes "./src:/app|||data" "myctr" "/home/u/proj" "/root" "/x" =
        "__PROJECT_PATH__/src:/app|||myctr.data" :=
  ⟨by decide, normalize_volumes_roundtrip "/root" "/x" (by decide)⟩

/-- **C8, counterexample.**  A config file that parses to valid JSON of a
non-object type (here a top-level array) makes `data.get(container_name,
{})` raise an uncaught `AttributeError`: `load_config` does not print
`{}` on *any* error. -/
theorem load_config_array_counterexample :
    loadConfig (.parsed (.arr [])) "web" = .error "AttributeError" := rfl

/-- **C8** (amended): `load_config` prints `{}` on a missing file, a JSON
parse error, or a missing container-name key, and prints the record when
the key is present; but when the file parses to a non-object JSON value
the `data.get` lookup raises an uncaught `AttributeError` instead of
printing `{}`. -/
theorem load_config_error_behavior (name : String) :
    loadConfig .missing name = .ok "{}" ∧
    loadConfig .invalid name = .ok "{}" ∧
    (∀ fields, loadConfig (.parsed (.obj fields)) name =
        .ok (jsonDump ((jsonObjGet fields name).getD (.obj [])))) ∧
    (∀ fields, jsonObjGet fields name = none →
        loadConfig (.parsed (.obj fields)) name = .ok "{}") ∧
    loadConfig (.parsed .null) name = .error "AttributeError" ∧
    (∀ b, loadConfig (.parsed (.bool b)) name = .error "AttributeError") ∧
    (∀ n, loadConfig (.parsed (.num n)) name = .error "AttributeError") ∧
    (∀ s, loadConfig (.parsed (.str s)) name = .error "AttributeError") ∧
    (∀ items, loadConfig (.parsed (.arr items)) name =
      .error "AttributeError") := by
  refine ⟨rfl, rfl, fun fields => rfl, ?_, rfl, fun b => rfl, fun n => rfl,
    fun s => rfl, fun items => rfl⟩
  intro fields hget
  simp only [loadConfig, hget, Option.getD_none]
  rw [jsonDump]
  rfl

/-- Witness for C8's hypothesis-bearing conjunct (missing key on an
empty document). -/
theorem load_config_error_behavior_witness :
    jsonObjGet [] "web" = none ∧
      loadConfig (.parsed (.obj [])) "web" = .ok "{}" :=
  ⟨rfl, (load_config_error_behavior "web").2.2.2.1 [] rfl⟩

/-- The two stdin scans agree on every line that splits into at least two
`|||`-separated fields. -/
theorem listDockerNames_eq_resolveDockerNames (lines : List String)
    (h : ∀ l ∈ lines, pyStrip l ≠ "" →
      (pySplitPipes (pyStrip l)).length ≥ 2) :
    listDockerNames lines = resolveDockerNames lines := by
  induction lines with
  | nil => rfl
  | cons l rest ih =>
    have hrest := ih fun x hx => h x (List.mem_cons_of_mem _ hx)
    unfold listDockerNames resolveDockerNames at hrest ⊢
    by_cases hl : pyStrip l = ""
    · simp [hl] at hrest ⊢
      exact hrest
    · have h2 := h l (List.mem_cons_self _ _) hl
      simp [hl, h2] at hrest ⊢
      exact hrest

/-- **C2, counterexample.**  A piped status line with no `|||` delimiter
is counted by `resolve_index` (`len(parts) >= 1`) but skipped by
`list_containers` (`len(parts) >= 2`): with one such live line `alpha`
and stored name `beta`, `resolve_index 1` prints `alpha` while row 1 of
the listing is `beta`. -/
theorem resolve_index_short_line_counterexample :
    resolveIndex ["alpha"] ["beta"] 1 = "alpha" ∧
      listRowNames ["alpha"] ["beta"] = ["beta"] ∧
      resolveIndex ["alpha"] ["beta"] 1 ≠
        (listRowNames ["alpha"] ["beta"]).getD 0 "" := by
  refine ⟨by decide, by decide, by decide⟩

/-- **C2** (amended): provided every non-blank piped line splits into at
least two `|||`-separated fields (the shape `list_containers` accepts),
`resolve_index` at position `k` prints exactly the name of the `k`-th row
of the sorted live∪stored union that `list_containers` renders, and `""`
when `k` is out of range — the two commands then use the same union and
sort rule. -/
theorem resolve_index_matches_list_rows (lines configNames : List String)
    (hlines : ∀ l ∈ lines, pyStrip l ≠ "" →
      (pySplitPipes (pyStrip l)).length ≥ 2)
    (k : Nat) (hk : 1 ≤ k) :
    resolveIndex lines configNames k =
      (listRowNames lines configNames).getD (k - 1) "" := by
  unfold resolveIndex resolveCombinedNames listRowNames
  rw [listDockerNames_eq_resolveDockerNames lines hlines]
  by_cases hr : k ≤ (pySortedSet (resolveDockerNames lines ++ configNames)).length
  · simp [hk, hr]
  · have hlen : (pySortedSet (resolveDockerNames lines ++ configNames)).length ≤
        k - 1 := by omega
    simp [hk, hr, List.getElem?_eq_none hlen]

/-- Witness for C2 on a well-formed live line and a stored name. -/
theorem resolve_index_matches_list_rows_witness :
    (∀ l ∈ (["web|||Up 2 hours"] : List String), pyStrip l ≠ "" →
        (pySplitPipes (pyStrip l)).length ≥ 2) ∧
      resolveIndex ["web|||Up 2 hours"] ["db"] 1 =
        (listRowNames ["web|||Up 2 hours"] ["db"]).getD 0 "" ∧
      resolveIndex ["web|||Up 2 hours"] ["db"] 1 = "db" :=
  ⟨by decide,
    resolve_index_matches_list_rows ["web|||Up 2 hours"] ["db"] (by decide) 1
      (by decide),
    by decide⟩

/-- **C10**: volume entries containing the substring `docker.sock`
anywhere — not only the literal socket mount — are invisible: the output
of `normalize_volumes_list` never contains that substring at all;
dropping every such entry from a volume list leaves
`normalize_volumes_list` unchanged; and `compare_configs` reports a
`volumes` change exactly when the two normalized strings differ, so such
entries can never cause one. -/
theorem docker_sock_entries_invisible :
    (∀ val : PyVal,
      pyContains (normalizeVolumesList val) "docker.sock" = false) ∧
    (∀ l : List String,
      normalizeVolumesList
          (.list (l.filter fun v => !(pyContains v "docker.sock"))) =
        normalizeVolumesList (.list l)) ∧
    (∀ (r : ConfigRecord) (np ni nd npp ns nv : String),
      "volumes" ∈ (compareConfigs (some r) np ni nd npp ns nv).changes ↔
        normalizeVolumesList r.volumesVal ≠ normalizeVolumesList (.str nv)) :=
  ⟨normalizeVolumesList_no_sock, normalizeVolumesList_filter_sock,
    compare_configs_volumes_change_iff⟩

/-- **C4, counterexample.**  Three failures of the claim as stated:
(a) on a parse failure the function returns the *stripped* text, not the
original input; (b) a timezone-aware input whose UTC conversion leaves
the supported year range raises an uncaught `OverflowError`
(`datetime.fromisoformat` succeeds, `astimezone` overflows); (c) a
four-digit-year claim fails for parsed years below 1000 because glibc's
`%Y` does not zero-pad. -/
theorem format_created_timestamp_counterexample :
    (formatCreatedTimestamp "  garbage " = .ok "garbage" ∧
      isClaimedForm "garbage" = false ∧ "garbage" ≠ "  garbage ") ∧
    formatCreatedTimestamp "0001-01-01T00:00:00+14:00" =
      .error "OverflowError" ∧
    (formatCreatedTimestamp "0500-01-02T03:04:05" = .ok "500-01-02 03:04" ∧
      isClaimedForm "500-01-02 03:04" = false ∧
      "500-01-02 03:04" ≠ "0500-01-02T03:04:05") := by
  exact ⟨⟨by decide, by decide, by decide⟩, by decide,
    by decide, by decide, by decide⟩

/-- **C4** (amended): whenever `format_created_timestamp` returns, the
result is either the rendering `Y-MM-DD HH:MM` of an in-range datetime
(month 1-12, day 1-31, hour ≤ 23, minute ≤ 59; the year is unpadded, so
four digits exactly for years ≥ 1000) or the input stripped of
leading/trailing whitespace; and the only exception it can raise is the
uncaught `OverflowError` from converting an extreme timezone-aware value
to UTC. -/
theorem format_created_timestamp_total_shape :
    (∀ s out, formatCreatedTimestamp s = Except.ok out →
      (isRenderedForm out = true ∧ ∃ dt, ValidOut dt ∧ out = renderDT dt) ∨
        out = pyStrip s) ∧
    (∀ s e, formatCreatedTimestamp s = Except.error e →
      e = "OverflowError") :=
  ⟨formatCreatedTimestamp_ok, formatCreatedTimestamp_error⟩

/-- Witness for C4 on the spec's own example timestamp. -/
theorem format_created_timestamp_total_shape_witness :
    formatCreatedTimestamp "2024-01-15T10:00:00Z" = .ok "2024-01-15 10:00" ∧
      ((isRenderedForm "2024-01-15 10:00" = true ∧
          ∃ dt, ValidOut dt ∧ ("2024-01-15 10:00" : String) = renderDT dt) ∨
        ("2024-01-15 10:00" : String) = pyStrip "2024-01-15T10:00:00Z") :=
  ⟨by decide, format_created_timestamp_total_shape.1 _ _ (by decide)⟩

/-- Witness for C9 on a concrete document. -/
theorem save_config_idempotent_witness :
    normalizeIsoTimestamp "2024-01-01T00:00:00Z" ≠ "" ∧
      saveConfigDoc
          (saveConfigDoc (fun _ => none) "web"
            { ports := "8080 3000:3001" } "2024-01-01T00:00:00Z") "web"
          { ports := "8080 3000:3001" } "2024-05-05T00:00:00Z" =
        saveConfigDoc (fun _ => none) "web"
          { ports := "8080 3000:3001" } "2024-01-01T00:00:00Z" :=
  ⟨by decide, save_config_idempotent _ _ _ _ _ (by decide)⟩

end Utils
